import Mathlib

/-!
# Verification of the request router (`src/utils/router.ts`)

This file gives a shallow embedding of the router source:

* `calculateTokenCount` — the token estimator (lines 12–64),
* `collectProviderTargets` — the provider registry (lines 72–104),
* `getUseModel` — the ordered routing rules (lines 106–178),
* `overlayTarget` / `router` — the credential overlay and the request
  middleware (lines 180–289),

together with theorems settling the specification claims.

JavaScript dynamic values are modelled by the inductive `JSVal`; property
access on `null`/`undefined` and method calls on values lacking the method
are modelled as `Except String` errors carrying the TypeError message.
Provider objects are mutable shared state; they live in a `Store`
(a list of `ProviderObj`) and are referenced by their index, which plays
the role of JavaScript object identity.  The external collaborators
(tiktoken encoder, `fs.readFile`, `require` of the custom router, the
session-usage cache, the provider service) are parameters of the
definitions, matching the spec's "external interfaces" section.
-/

/-- A JavaScript value restricted to the shapes a credential field can hold:
`undefined`, `null`, or a string.  Used for `api_key` / `apiKey` /
`_static_api_key` and for `req.bearerToken`. -/
inductive JsV where
  | undef
  | null
  | str (s : String)
deriving DecidableEq, Repr

/-- JavaScript `a ?? b` (nullish coalescing): take `b` exactly when `a` is
`undefined` or `null`. -/
def jsCoalesce (a b : JsV) : JsV :=
  match a with
  | .undef => b
  | .null => b
  | .str s => .str s

/-- Truthiness of a `JsV`: only a non-empty string is truthy. -/
def JsV.truthy : JsV → Bool
  | .undef => false
  | .null => false
  | .str s => s ≠ ""

/-- A general JavaScript value (for the token estimator, which must accept
arbitrarily malformed request shapes). -/
inductive JSVal where
  | undef
  | null
  | bool (b : Bool)
  | num (n : Int)
  | str (s : String)
  | arr (xs : List JSVal)
  | obj (fields : List (String × JSVal))

/-- JavaScript strict equality `v === s` against a string literal: only a
string with the same contents compares equal. -/
def JSVal.isStr (v : JSVal) (s : String) : Bool :=
  match v with
  | .str t => t = s
  | _ => false

/-- JavaScript truthiness for a general value. -/
def JSVal.truthy : JSVal → Bool
  | .undef => false
  | .null => false
  | .bool b => b
  | .num n => n ≠ 0
  | .str s => s ≠ ""
  | .arr _ => true
  | .obj _ => true

/-- Field lookup on an object's field list (last occurrence wins is not
needed; JS object literals have unique keys, we take the first match). -/
def jsLookup (fields : List (String × JSVal)) (k : String) : JSVal :=
  match fields with
  | [] => .undef
  | (k', v) :: rest => if k' = k then v else jsLookup rest k

/-- Total property access `v[k]` for a receiver that is not `null`/
`undefined`: objects look the key up, every other receiver yields
`undefined` (none of the fields accessed by the source exist on JS
primitives or arrays). -/
def jsGetD (v : JSVal) (k : String) : JSVal :=
  match v with
  | .obj fields => jsLookup fields k
  | _ => JSVal.undef

/-- Property access `v.k` as the source performs it (no optional chaining):
throws a TypeError when the receiver is `null` or `undefined`. -/
def jsGet (v : JSVal) (k : String) : Except String JSVal :=
  match v with
  | .undef => .error ("TypeError: Cannot read properties of undefined (reading " ++ k ++ ")")
  | .null => .error ("TypeError: Cannot read properties of null (reading " ++ k ++ ")")
  | _ => .ok (jsGetD v k)

mutual

/-- JavaScript `ToString` coercion (the tiktoken encoder, reached through
`TextEncoder`, coerces its argument to a string). -/
def jsToStr : JSVal → String
  | .undef => "undefined"
  | .null => "null"
  | .bool b => if b then "true" else "false"
  | .num n => toString n
  | .str s => s
  | .arr xs => jsToStrList xs
  | .obj _ => "[object Object]"

/-- `Array.prototype.toString`: elements joined by `,`, with `null` and
`undefined` elements rendered as the empty string. -/
def jsToStrList : List JSVal → String
  | [] => ""
  | [x] => jsToStrElem x
  | x :: rest => jsToStrElem x ++ "," ++ jsToStrList rest

def jsToStrElem : JSVal → String
  | .undef => ""
  | .null => ""
  | v => jsToStr v

end

mutual

/-- Body of `JSON.stringify` for values that serialize to text. -/
def jsonStr : JSVal → String
  | .undef => "null"    -- only reached for array elements, where undefined serializes as null
  | .null => "null"
  | .bool b => if b then "true" else "false"
  | .num n => toString n
  | .str s => "\"" ++ s ++ "\""
  | .arr xs => "[" ++ jsonStrList xs ++ "]"
  | .obj fs => "\x7b" ++ jsonStrFields fs ++ "\x7d"

def jsonStrList : List JSVal → String
  | [] => ""
  | [x] => jsonStr x
  | x :: rest => jsonStr x ++ "," ++ jsonStrList rest

def jsonStrFields : List (String × JSVal) → String
  | [] => ""
  | [(k, v)] => (match v with
      | .undef => ""
      | _ => "\"" ++ k ++ "\":" ++ jsonStr v)
  | (k, v) :: rest => (match v with
      | .undef => jsonStrFields rest
      | _ => "\"" ++ k ++ "\":" ++ jsonStr v ++ "," ++ jsonStrFields rest)

end

/-- Top-level `JSON.stringify`: `undefined` serializes to `undefined`
(not a string); everything else to a string. -/
def jsonStringify (v : JSVal) : JSVal :=
  match v with
  | .undef => .undef
  | v => .str (jsonStr v)

/-- JavaScript `+` as used in `tool.name + tool.description`: if either
operand is a string (or an object/array, whose `ToPrimitive` is a string),
concatenate the coerced strings; two numbers add; the remaining primitive
combinations involving `undefined` produce `NaN`, which the encoder then
coerces to the string `"NaN"`; other numeric-ish primitives add after
`ToNumber`. -/
def jsAdd (a b : JSVal) : JSVal :=
  match a, b with
  | .str x, y => .str (x ++ jsToStr y)
  | x, .str y => .str (jsToStr x ++ y)
  | .arr x, y => .str (jsToStrList x ++ jsToStr y)
  | x, .arr y => .str (jsToStr x ++ jsToStrList y)
  | .obj _, y => .str ("[object Object]" ++ jsToStr y)
  | x, .obj _ => .str (jsToStr x ++ "[object Object]")
  | .undef, _ => .str "NaN"
  | _, .undef => .str "NaN"
  | .num x, .num y => .num (x + y)
  | .num x, .null => .num x
  | .null, .num y => .num y
  | .null, .null => .num 0
  | .bool x, .bool y => .num ((if x then 1 else 0) + (if y then 1 else 0))
  | .bool x, .num y => .num ((if x then 1 else 0) + y)
  | .num x, .bool y => .num (x + (if y then 1 else 0))
  | .bool x, .null => .num (if x then 1 else 0)
  | .null, .bool y => .num (if y then 1 else 0)

/-!
## JavaScript string primitives

`String.prototype.split`, `.includes`, `.startsWith`, `.replace` (with a
string pattern, which replaces the first occurrence only) and the guarded
regex match of the subagent rule all reduce to finding the *first*
occurrence of a pattern in a string.  `breakFirst` performs that search on
character lists (with fuel for structural recursion); the string wrappers
follow. -/

/-- Split `l` at the first occurrence of `sep`: `some (pre, post)` with
`l = pre ++ sep ++ post` and no occurrence of `sep` starting inside `pre`;
`none` when `sep` does not occur.  `fuel ≥ l.length` is always supplied. -/
def breakFirst (sep : List Char) : Nat → List Char → Option (List Char × List Char)
  | _, [] => none
  | 0, _ :: _ => none
  | fuel + 1, c :: rest =>
    if sep.isPrefixOf (c :: rest) then
      some ([], (c :: rest).drop sep.length)
    else
      (breakFirst sep fuel rest).map (fun p => (c :: p.1, p.2))

/-- JavaScript `String.prototype.split` with a non-empty string separator,
on character lists, with fuel bounding the number of fields. -/
def splitFuel (sep : List Char) : Nat → List Char → List (List Char)
  | 0, l => [l]
  | fuel + 1, l =>
    match breakFirst sep l.length l with
    | none => [l]
    | some (x, y) => x :: splitFuel sep fuel y

/-- `String.prototype.split` on character lists (enough fuel for any input). -/
def jsSplitCh (sep l : List Char) : List (List Char) :=
  splitFuel sep (l.length + 1) l

/-- JavaScript `s.split(sep)` for a non-empty string separator. -/
def jsSplit (s sep : String) : List String :=
  (jsSplitCh sep.data s.data).map (fun cs => ⟨cs⟩)

/-- JavaScript `s.includes(sub)`. -/
def jsIncludes (s sub : String) : Bool :=
  (breakFirst sub.data s.data.length s.data).isSome

/-- JavaScript `s.startsWith(p)`. -/
def jsStartsWith (s p : String) : Bool :=
  p.data.isPrefixOf s.data

/-- JavaScript `s.replace(pat, rep)` with a string pattern: replaces the
first occurrence only, returns `s` unchanged if `pat` does not occur. -/
def jsReplaceFirst (s pat rep : String) : String :=
  match breakFirst pat.data s.data.length s.data with
  | none => s
  | some (x, y) => ⟨x ++ rep.data ++ y⟩

/-- JavaScript `s.toLowerCase()` (ASCII range, which covers provider and
model names). -/
def jsToLower (s : String) : String := ⟨s.data.map Char.toLower⟩

/-- Is the character whitespace for `String.prototype.trim`? -/
def isJsSpace (c : Char) : Bool :=
  c = ' ' ∨ c = '\t' ∨ c = '\n' ∨ c = '\r'

/-- JavaScript `s.trim()`. -/
def jsTrim (s : String) : String :=
  ⟨((s.data.dropWhile isJsSpace).reverse.dropWhile isJsSpace).reverse⟩


/-!
## Token estimator (`calculateTokenCount`, source lines 12–64)

`encode` is the external tiktoken encoder, used only for the length of its
output (spec §4.1); we take it as an abstract `String → Nat`.  Reached
through the wasm `TextEncoder` boundary it coerces a non-string argument
with JavaScript `ToString`, so `encArg` applies `jsToStr` first.  Property
access on a `null`/`undefined` element raises, which the `Except` layer
records; every `req.log` call is pure observability and is omitted. -/

/-- `enc.encode(v).length` for a possibly non-string argument. -/
def encArg (encode : String → Nat) (v : JSVal) : Nat :=
  encode (jsToStr v)

/-- Tokens contributed by one element of an array-valued `message.content`
(source lines 23–35).  The element has already been accessed as
`contentPart.type`, which throws on `null`/`undefined`. -/
def partTokens (encode : String → Nat) (p : JSVal) : Except String Nat := do
  let ty ← jsGet p "type"
  if ty.isStr "text" then
    return encArg encode (jsGetD p "text")
  else if ty.isStr "tool_use" then
    return encArg encode (jsonStringify (jsGetD p "input"))
  else if ty.isStr "tool_result" then
    match jsGetD p "content" with
    | .str s => return encode s
    | c => return encArg encode (jsonStringify c)
  else
    return 0

/-- Tokens contributed by one message (source lines 19–37). -/
def messageTokens (encode : String → Nat) (m : JSVal) : Except String Nat := do
  let c ← jsGet m "content"
  match c with
  | .str s => return encode s
  | .arr parts => parts.foldlM (fun acc p => do return acc + (← partTokens encode p)) 0
  | _ => return 0

/-- Tokens contributed by one element of an array-valued system prompt
(source lines 42–51): only segments whose `type` is `"text"` count. -/
def systemItemTokens (encode : String → Nat) (item : JSVal) : Except String Nat := do
  let ty ← jsGet item "type"
  if ¬ ty.isStr "text" then
    return 0
  else
    match jsGetD item "text" with
    | .str s => return encode s
    | .arr textParts =>
      return textParts.foldl
        (fun acc tp => acc + encArg encode (if tp.truthy then tp else .str "")) 0
    | _ => return 0

/-- Tokens contributed by one tool declaration (source lines 54–61). -/
def toolTokens (encode : String → Nat) (tool : JSVal) : Except String Nat := do
  let d ← jsGet tool "description"
  let t1 := if d.truthy then encArg encode (jsAdd (jsGetD tool "name") d) else 0
  let s := jsGetD tool "input_schema"
  let t2 := if s.truthy then encArg encode (jsonStringify s) else 0
  return t1 + t2

/-- The messages section of the estimator (source lines 18–38). -/
def messagesTokens (encode : String → Nat) (messages : JSVal) : Except String Nat :=
  match messages with
  | .arr ms => ms.foldlM (fun acc m => do return acc + (← messageTokens encode m)) 0
  | _ => pure 0

/-- The system-prompt section of the estimator (source lines 39–52). -/
def systemTokens (encode : String → Nat) (system : JSVal) : Except String Nat :=
  match system with
  | .str s => pure (encode s)
  | .arr items => items.foldlM (fun acc it => do return acc + (← systemItemTokens encode it)) 0
  | _ => pure 0

/-- The tools section of the estimator (source lines 53–62).
`tools.forEach` on a truthy non-array receiver raises a TypeError, which
the source does not guard against (it checks `if (tools)`, not
`Array.isArray(tools)`). -/
def toolsTokens (encode : String → Nat) (tools : JSVal) : Except String Nat :=
  if tools.truthy then
    match tools with
    | .arr ts => ts.foldlM (fun acc t => do return acc + (← toolTokens encode t)) 0
    | _ => Except.error "TypeError: tools.forEach is not a function"
  else
    pure 0

/-- The token estimator (source lines 12–64): the sum of the three
sections, each of which may raise. -/
def calculateTokenCount (encode : String → Nat)
    (messages system tools : JSVal) : Except String Nat := do
  let msgTokens ← messagesTokens encode messages
  let sysTokens ← systemTokens encode system
  let toolTokensTotal ← toolsTokens encode tools
  return msgTokens + sysTokens + toolTokensTotal

/-!
## Provider registry and credential overlay (source lines 66–104, 185–246)

Provider objects are process-wide shared mutable state.  We model the heap
of provider objects as a `Store` (list of `ProviderObj`); a JavaScript
object reference is an index into it, so reference identity (`includes`,
`===`) is index equality.  The two configured provider lists hold such
references. -/

/-- One entry of a provider's `_dynamic_api_key_stack`. The `requestId`
`Symbol` is modelled as a `Nat` chosen fresh per routing call. -/
structure OvEntry where
  requestId : Nat
  newKey : String
deriving DecidableEq, Repr

/-- A physical provider object.  `_static_api_key = JsV.undef` models the
field being absent (`typeof primary._static_api_key === "undefined"`);
`_dynamic_api_key_stack = none` models the field absent or not an array. -/
structure ProviderObj where
  name : String
  api_key : JsV
  apiKey : JsV
  models : Option (List String)
  _static_api_key : JsV := .undef
  _dynamic_api_key_stack : Option (List OvEntry) := none
deriving DecidableEq, Repr

/-- The heap of provider objects. -/
abbrev Store := List ProviderObj

/-- `ProviderTarget` (source lines 66–70): references are object
identities, i.e. store indices. -/
structure PTarget where
  name : String
  references : List Nat
  primary : Nat
deriving DecidableEq, Repr

/-- One step of `registerProviders` (source lines 80–97): skip entries
whose `name` is falsy, append to the existing target's references unless
already present by identity, otherwise create a new target.  The
insertion-ordered `Map` is modelled by a list of targets with pairwise
distinct names, updated in place. -/
def registerOne (store : Store) (acc : List PTarget) (i : Nat) : List PTarget :=
  match store.get? i with
  | none => acc      -- dangling reference: cannot arise from a JS object list
  | some p =>
    if p.name = "" then acc
    else if acc.any (fun t => t.name = p.name) then
      acc.map (fun t =>
        if t.name = p.name then
          { t with references :=
              if i ∈ t.references then t.references else t.references ++ [i] }
        else t)
    else
      acc ++ [⟨p.name, [i], i⟩]

/-- `registerProviders` applied to one configured list (absent or
non-array lists are skipped, source lines 75–78). -/
def registerProviders (store : Store) (acc : List PTarget) :
    Option (List Nat) → List PTarget
  | none => acc
  | some l => l.foldl (registerOne store) acc

/-- The `Router` policy configuration.  A missing string field is `none`;
JavaScript truthiness additionally treats `some ""` as falsy
(`OptStr.truthy` below). -/
structure RouterCfg where
  default : String
  background : Option String := none
  think : Option String := none
  webSearch : Option String := none
  longContext : Option String := none
  longContextThreshold : Option Nat := none
deriving DecidableEq, Repr

/-- Truthiness of an optional string-valued configuration field. -/
def OptStr.truthy : Option String → Bool
  | some s => s ≠ ""
  | none => false

/-- The configuration record.  `Providers` and `providers` are the two
case-variant declared provider lists (absent when not arrays); their
elements are references into the `Store`. -/
structure Config where
  Providers : Option (List Nat) := none
  providers : Option (List Nat) := none
  Router : RouterCfg
  REWRITE_SYSTEM_PROMPT : Option String := none
  CUSTOM_ROUTER_PATH : Option String := none
deriving DecidableEq, Repr

/-- `collectProviderTargets` (source lines 72–104): register the
capitalized list first, then the lowercase list. -/
def collectProviderTargets (store : Store) (config : Config) : List PTarget :=
  registerProviders store (registerProviders store [] config.Providers) config.providers

/-- The credential currently in effect for a provider object:
`activeEntry?.newKey ?? primary.api_key ?? primary.apiKey ?? null`
(source lines 208–210), where `activeEntry` is the top (last element) of
the override stack. -/
def currentKeyOf (p : ProviderObj) : JsV :=
  jsCoalesce
    (match (p._dynamic_api_key_stack.getD []).getLast? with
     | some e => .str e.newKey
     | none => .undef)
    (jsCoalesce p.api_key (jsCoalesce p.apiKey .null))

/-- Overwrite both credential-field spellings of the object at index `i`
(source lines 218–221). -/
def setKeys (store : Store) (token : String) (i : Nat) : Store :=
  match store.get? i with
  | none => store
  | some r => store.set i { r with api_key := .str token, apiKey := .str token }

/-- The lazy `_static_api_key` snapshot (source lines 199–202): performed
whenever the field is still absent, *before* the idempotence guard. -/
def snapStatic (p : ProviderObj) : ProviderObj :=
  if p._static_api_key = .undef
  then { p with _static_api_key := jsCoalesce p.api_key (jsCoalesce p.apiKey .null) }
  else p

/-- Initialization of the `_dynamic_api_key_stack` field (source lines
204–206): an absent/non-array field becomes the empty array. -/
def initStack (p : ProviderObj) : ProviderObj :=
  { p with _dynamic_api_key_stack := some (p._dynamic_api_key_stack.getD []) }

/-- Push an override entry onto the stack (source line 216). -/
def pushEntry (p : ProviderObj) (requestId : Nat) (token : String) : ProviderObj :=
  { p with _dynamic_api_key_stack := some ((p._dynamic_api_key_stack.getD []) ++ [⟨requestId, token⟩]) }

/-- The body of the per-target `forEach` of the credential overlay
(source lines 193–238).  Returns the updated store, the override record
pushed for the caller (`{target, requestId}`, `none` when nothing was
applied) and the best-effort provider-service notification
(`(name, token)` when the service knows the provider).  The
`server?.providerService` collaborator is abstracted to the predicate
`hasProvider`.  Note the snapshot and the stack initialization are written
to the object even when the idempotence guard then stops the override. -/
def overlayTarget (hasProvider : Option (String → Bool)) (requestId : Nat)
    (token : String) (store : Store) (t : PTarget) :
    Store × Option (PTarget × Nat) × Option (String × String) :=
  match store.get? t.primary with
  | none => (store, none, none)     -- `if (!primary) return;`
  | some p0 =>
    if currentKeyOf (initStack (snapStatic p0)) = .str token then
      -- guard hit (lines 212–214): only the lazy mutations persist
      (store.set t.primary (initStack (snapStatic p0)), none, none)
    else
      -- push (line 216) and overwrite every reference (lines 218–221),
      -- then notify the provider service (lines 223–232)
      (t.references.foldl (fun s i => setKeys s token i)
         (store.set t.primary (pushEntry (initStack (snapStatic p0)) requestId token)),
       some (t, requestId),
       match hasProvider with
       | some hasP => if hasP t.name then some (t.name, token) else none
       | none => none)

/-- The whole overlay pass over all targets (the `providerTargets.forEach`
of source lines 193–238), accumulating the override records and
notifications in order. -/
def overlayPass (hasProvider : Option (String → Bool)) (requestId : Nat)
    (token : String) (store : Store) (targets : List PTarget) :
    Store × List (PTarget × Nat) × List (String × String) :=
  targets.foldl
    (fun acc t =>
      let r := overlayTarget hasProvider requestId token acc.1 t
      (r.1, acc.2.1 ++ r.2.1.toList, acc.2.2 ++ r.2.2.toList))
    (store, [], [])

/-!
## Request model and routing rules (`getUseModel`, source lines 106–178)
-/

/-- One segment of an array-valued system prompt.  The source only reads
`.type` (token estimator) and `.text` (subagent / rewrite rules). -/
structure Segment where
  type : String := "text"
  text : String
deriving DecidableEq, Repr

/-- The request body.  `model` is the requested model string; `messages`,
`tools`, `thinking` and `metadata` keep their raw JavaScript shapes. -/
structure ReqBody where
  model : String
  messages : JSVal := .arr []
  system : List Segment := []
  tools : JSVal := .undef
  thinking : JSVal := .undef
  metadata : JSVal := JSVal.undef

/-- The in-flight request.  `bearerToken` is the caller-supplied credential,
`sessionId`, `dynamicApiKeyOverrides` and `tokenCount` are written by the
router. -/
structure Req where
  body : ReqBody
  bearerToken : JsV := .undef
  sessionId : Option String := none
  dynamicApiKeyOverrides : Option (List (PTarget × Nat)) := none
  tokenCount : Option Nat := none

/-- Prior session usage from the external cache
(`sessionUsageCache`, spec §6). -/
structure Usage where
  input_tokens : Nat
deriving DecidableEq, Repr

/-- The opening subagent marker tag. -/
def subagentOpenTag : String := "<CCR-SUBAGENT-MODEL>"

/-- The closing subagent marker tag. -/
def subagentCloseTag : String := "</CCR-SUBAGENT-MODEL>"

/-- The effective long-context threshold,
`config.Router.longContextThreshold || 60000` (`0` is falsy and also falls
back to the default). -/
def jsThreshold : Option Nat → Nat
  | some n => if n = 0 then 60000 else n
  | none => 60000

/-- The `lastUsageThreshold` condition of the long-context rule
(source lines 128–131): prior usage exists, its `input_tokens` exceeds the
threshold, and the current count exceeds 20000. -/
def lastUsageGuard (threshold tokenCount : Nat) : Option Usage → Bool
  | some u => decide (u.input_tokens > threshold) && decide (tokenCount > 20000)
  | none => false

/-- The web-search rule (source lines 170–176):
`Array.isArray(tools) && tools.some(tool => tool.type?.startsWith("web_search"))`.
`tool.type` throws on a `null`/`undefined` element; optional chaining makes
a `null`/`undefined` type contribute `false`; calling `.startsWith` on any
other non-string type throws. -/
def webSearchToolHit (tools : JSVal) : Except String Bool :=
  match tools with
  | .arr ts =>
    ts.foldlM
      (fun acc tool => do
        if acc then
          return true
        else
          let ty ← jsGet tool "type"
          match ty with
          | .undef => return false
          | .null => return false
          | .str s => return (jsStartsWith s "web_search")
          | _ => Except.error "TypeError: tool.type?.startsWith is not a function")
      false
  | _ => .ok false

/-- Routing rules 4–7 (background model, thinking mode, web-search tool,
default; source lines 157–177).  The web-search tool scan runs only when
the background and thinking rules have not fired, matching the source's
evaluation order. -/
def laterRules (config : Config) (body : ReqBody) : Except String String :=
  if jsStartsWith body.model "claude-3-5-haiku" ∧ OptStr.truthy config.Router.background then
    .ok (config.Router.background.getD "")
  else if body.thinking.truthy ∧ OptStr.truthy config.Router.think then
    .ok (config.Router.think.getD "")
  else
    (webSearchToolHit body.tools).bind (fun hit =>
      if hit ∧ OptStr.truthy config.Router.webSearch then
        .ok (config.Router.webSearch.getD "")
      else
        .ok config.Router.default)

/-- The subagent directive (rule 3, source lines 142–156).  The guard
requires the second segment's text to start with the opening tag; the
non-greedy, dot-matches-newline regex then captures everything up to the
*first* occurrence of the closing tag (an occurrence of the closing tag
cannot start inside the opening prefix, so the match begins at position 0),
and `String.replace` removes the first occurrence of the matched substring.
Returns `some (model, mutated body)` on a hit. -/
def subagentDirective (body : ReqBody) : Option (String × ReqBody) :=
  match body.system.get? 1 with
  | none => none
  | some seg =>
    if body.system.length > 1 ∧ jsStartsWith seg.text subagentOpenTag then
      match breakFirst subagentCloseTag.data seg.text.data.length
          (seg.text.data.drop subagentOpenTag.data.length) with
      | none => none    -- no closing tag: `match` is null, fall through
      | some (g, _) =>
        let captured : String := ⟨g⟩
        let newText := jsReplaceFirst seg.text
          (subagentOpenTag ++ captured ++ subagentCloseTag) ""
        some (captured, { body with system := body.system.set 1 { seg with text := newText } })
    else none

/-- `getUseModel` (source lines 106–178).  Returns the selected model and
the (possibly mutated) request body; routing failures (for example the
compound rule reading `config.Providers.find` when `Providers` is absent)
are `Except` errors, caught by the router's top-level handler. -/
def getUseModel (store : Store) (config : Config) (body : ReqBody)
    (tokenCount : Nat) (lastUsage : Option Usage) :
    Except String (String × ReqBody) := do
  -- rule 1: explicit compound selector (lines 112–124)
  if jsIncludes body.model "," then
    let parts := jsSplit body.model ","
    let provider := parts.headD ""
    let modelPart := (parts.get? 1).getD ""   -- split yields ≥ 2 fields here
    match config.Providers with
    | none =>
      Except.error "TypeError: Cannot read properties of undefined (reading find)"
    | some refs =>
      let ps := refs.filterMap (fun i => store.get? i)
      let finalProvider := ps.find? (fun p => jsToLower p.name = provider)
      let finalModel := finalProvider.bind
        (fun p => (p.models.getD []).find? (fun m => jsToLower m = modelPart))
      match finalProvider, finalModel with
      | some fp, some fm =>
        if fm ≠ "" then    -- `if (finalProvider && finalModel)`: "" is falsy
          return (fp.name ++ "," ++ fm, body)
        else
          return (body.model, body)
      | _, _ => return (body.model, body)
  else
  -- rule 2: long-context override (lines 126–141)
  let longContextThreshold := jsThreshold config.Router.longContextThreshold
  let lastUsageThreshold : Bool := lastUsageGuard longContextThreshold tokenCount lastUsage
  let tokenCountThreshold : Bool := decide (tokenCount > longContextThreshold)
  if (lastUsageThreshold || tokenCountThreshold) && OptStr.truthy config.Router.longContext then
    return (config.Router.longContext.getD "", body)
  else
  -- rule 3: subagent directive (lines 142–156)
  match subagentDirective body with
  | some (model, body') => return (model, body')
  | none =>
  -- rules 4–7 (lines 157–177)
  (laterRules config body).map (fun m => (m, body))

/-!
## The router middleware (source lines 180–289)

External collaborators are parameters: `encode` (tiktoken), `fs`
(`fs/promises.readFile`, which may reject), `crequire` (CommonJS `require`
of the custom-router path followed by its invocation, both of which may
throw; the `{event}` context argument is outside the model), `cache` (the
session-usage cache) and `hasProvider` (the optional
`server.providerService`).  A rejected `await` outside the `try` block
surfaces as an `Except.error` of the whole call. -/

/-- A loaded custom-router function: takes the request (with `tokenCount`
set) and the config, may throw, and returns a model identifier or a falsy
result. -/
def CRFn := Req → Config → Except String (Option String)

/-- The outcome of a routing call: mutated request, log lines
(`req.log` and `console.log`), provider-service update notifications. -/
structure RouterOut where
  req : Req
  log : List String
  notes : List (String × String)

/-- The bearer-token overlay phase (source lines 185–247). -/
def bearerPhase (hasProvider : Option (String → Bool)) (requestId : Nat)
    (store : Store) (req : Req) (targets : List PTarget) :
    Store × Req × List String × List (String × String) :=
  if req.bearerToken.truthy ∧ targets ≠ [] then
    let token := match req.bearerToken with
      | .str s => jsTrim s
      | _ => ""
    if token ≠ "" then
      let r := overlayPass hasProvider requestId token store targets
      let overrides := r.2.1
      let req' := if overrides ≠ []
        then { req with dynamicApiKeyOverrides := some overrides }
        else req
      let lg := if overrides ≠ []
        then ["[ROUTER] Applied dynamic API key to " ++ toString overrides.length
                ++ " provider(s)"]
        else []
      (r.1, req', lg, r.2.2)
    else (store, req, [], [])
  else (store, req, [], [])

/-- Session-id extraction (source lines 248–254): optional chaining guards
the metadata access, but `.split` on a truthy non-string `user_id` throws
— outside the `try` block. -/
def sessionPhase (req : Req) : Except String Req :=
  match req.body.metadata with
  | .undef => .ok req
  | .null => .ok req
  | m =>
    if (jsGetD m "user_id").truthy then
      match jsGetD m "user_id" with
      | .str s =>
        if (jsSplit s "_session_").length > 1 then
          .ok { req with sessionId := (jsSplit s "_session_").get? 1 }
        else .ok req
      | _ => .error "TypeError: req.body.metadata.user_id.split is not a function"
    else .ok req

/-- The system-prompt rewrite (source lines 256–260): reads the prompt file
— outside the `try` block, so a failing read propagates — and replaces the
second segment's text with the prompt followed by the portion of the
original text from its *last* `<env>` marker (`.split('<env>').pop()`). -/
def rewritePhase (fs : String → Except String String) (config : Config)
    (req : Req) : Except String Req :=
  match req.body.system.get? 1 with
  | none => .ok req
  | some seg =>
    if OptStr.truthy config.REWRITE_SYSTEM_PROMPT ∧ req.body.system.length > 1
        ∧ jsIncludes seg.text "<env>" then do
      let prompt ← fs (config.REWRITE_SYSTEM_PROMPT.getD "")
      let newText := prompt ++ "<env>" ++ ((jsSplit seg.text "<env>").getLast?.getD "")
      .ok { req with body :=
        { req.body with system := req.body.system.set 1 { seg with text := newText } } }
    else .ok req

/-- The system prompt as passed to the token estimator. -/
def segsToJs (segs : List Segment) : JSVal :=
  .arr (segs.map (fun s => .obj [("type", .str s.type), ("text", .str s.text)]))

/-- The custom-router step inside the try block (source lines 269–280):
loading and invoking the custom router, each failure caught and logged;
returns the (possibly falsy) custom result, the log lines, and the request
(with `tokenCount` written once the module loaded). -/
def customPhase (crequire : String → Except String CRFn) (config : Config)
    (req : Req) (tokenCount : Nat) : Option String × List String × Req :=
  if OptStr.truthy config.CUSTOM_ROUTER_PATH then
    match crequire (config.CUSTOM_ROUTER_PATH.getD "") with
    | .error e => (none, ["failed to load custom router: " ++ e], req)
    | .ok fn =>
      match fn { req with tokenCount := some tokenCount } config with
      | .error e => (none, ["failed to load custom router: " ++ e],
          { req with tokenCount := some tokenCount })
      | .ok m => (m, [], { req with tokenCount := some tokenCount })
  else (none, [], req)

/-- The guarded decision phase (source lines 262–288): token counting, the
custom router (with its own `catch`), `getUseModel`, and the top-level
`catch` that logs and substitutes the configured default model. -/
def routerTryPhase (encode : String → Nat) (crequire : String → Except String CRFn)
    (store : Store) (config : Config) (req : Req) (lastUsage : Option Usage) :
    Req × List String :=
  match calculateTokenCount encode req.body.messages (segsToJs req.body.system)
      req.body.tools with
  | .error e =>
    ({ req with body := { req.body with model := config.Router.default } },
     ["Error in router middleware: " ++ e])
  | .ok tokenCount =>
    if OptStr.truthy (customPhase crequire config req tokenCount).1 then
      ({ (customPhase crequire config req tokenCount).2.2 with
          body := { (customPhase crequire config req tokenCount).2.2.body with
            model := (customPhase crequire config req tokenCount).1.getD "" } },
       (customPhase crequire config req tokenCount).2.1)
    else
      match getUseModel store config (customPhase crequire config req tokenCount).2.2.body
          tokenCount lastUsage with
      | .ok (m, body') =>
        ({ (customPhase crequire config req tokenCount).2.2 with
            body := { body' with model := m } },
         (customPhase crequire config req tokenCount).2.1)
      | .error e =>
        ({ (customPhase crequire config req tokenCount).2.2 with
            body := { (customPhase crequire config req tokenCount).2.2.body with
              model := config.Router.default } },
         (customPhase crequire config req tokenCount).2.1
           ++ ["Error in router middleware: " ++ e])

/-- The router middleware (source lines 180–289).  An `Except.error` result
is an exception escaping the call (rejecting the middleware's promise);
`Except.ok` carries the mutated request, log lines, and provider-service
notifications. -/
def router (encode : String → Nat) (fs : String → Except String String)
    (crequire : String → Except String CRFn) (cache : String → Option Usage)
    (hasProvider : Option (String → Bool)) (requestId : Nat)
    (store : Store) (config : Config) (req : Req) : Except String RouterOut := do
  let targets := collectProviderTargets store config
  let phase1 := bearerPhase hasProvider requestId store req targets
  let req2 ← sessionPhase phase1.2.1
  -- Modelled from the spec: the session-usage cache collaborator
  -- (`./cache`, not under src/) with `get(sessionId) -> usage | absent`;
  -- a lookup without a session id "must be treated as a cache miss"
  -- (spec §4.4), hence `Option.bind`.
  let lastMessageUsage := req2.sessionId.bind cache
  let req3 ← rewritePhase fs config req2
  let tryResult := routerTryPhase encode crequire phase1.1 config req3 lastMessageUsage
  return ⟨tryResult.1, phase1.2.2.1 ++ tryResult.2, phase1.2.2.2⟩


/-!
## Statement-level predicates

Definitions used by the theorem statements: well-formedness of request
shapes for the token estimator, and the spec-side description of
first-seen provider-name order.
-/

/-- Is the value `null` or `undefined` (property access on it throws)? -/
def JSVal.isNullish : JSVal → Bool
  | .null => true
  | .undef => true
  | _ => false

/-- A message the estimator can process without raising: not nullish, and
if its `content` is an array, no element of it is nullish. -/
def wfMessage (m : JSVal) : Bool :=
  !m.isNullish &&
    (match jsGetD m "content" with
     | .arr parts => parts.all (fun p => !p.isNullish)
     | _ => true)

/-- A `messages` value the estimator can process without raising. -/
def wfMessages (messages : JSVal) : Bool :=
  match messages with
  | .arr ms => ms.all wfMessage
  | _ => true

/-- A `system` value the estimator can process without raising. -/
def wfSystem (system : JSVal) : Bool :=
  match system with
  | .arr items => items.all (fun it => !it.isNullish)
  | _ => true

/-- A `tools` value the estimator can process without raising: either falsy
or an array with no nullish element. -/
def wfTools (tools : JSVal) : Bool :=
  match tools with
  | .arr ts => ts.all (fun t => !t.isNullish)
  | v => !v.truthy

/-- No occurrence of `sep` starts strictly before position `a.length` in
`a ++ sep ++ b`: the occurrence spelled out by the decomposition is the
first one. -/
def FirstOcc (sep a b : List Char) : Prop :=
  ∀ i < a.length, ¬ sep.isPrefixOf ((a ++ sep ++ b).drop i)

instance (sep a b : List Char) : Decidable (FirstOcc sep a b) :=
  inferInstanceAs (Decidable (∀ i < a.length, ¬ sep.isPrefixOf ((a ++ sep ++ b).drop i) = true))

/-- `sep` does not occur anywhere in `l`. -/
def NoOcc (sep l : List Char) : Prop :=
  ∀ i, ¬ sep.isPrefixOf (l.drop i)

/-- The name contributed by a configured provider reference: `none` when
the reference is dangling or the entry has a falsy name (such entries are
skipped by `registerOne`). -/
def validName (store : Store) (i : Nat) : Option String :=
  (store.get? i).bind (fun p => if p.name = "" then none else some p.name)

/-- Spec-side definition ("targets keyed by name in first-seen order"):
the names contributed by a reference list, each name kept at its first
occurrence. -/
def firstSeenNames (store : Store) (init : List String) (l : List Nat) : List String :=
  l.foldl
    (fun ns i =>
      match validName store i with
      | some n => if n ∈ ns then ns else ns ++ [n]
      | none => ns)
    init

/-- The registry invariant of claim C6: pairwise distinct target names, and
every target has a non-falsy name, a non-empty, identity-deduplicated
reference list containing its primary. -/
def TargetsWF (ts : List PTarget) : Prop :=
  (ts.map PTarget.name).Nodup ∧
  ∀ t ∈ ts, t.name ≠ "" ∧ t.references ≠ [] ∧ t.primary ∈ t.references ∧
    t.references.Nodup

/-!
## Helper lemmas
-/

/-! ### Lemmas about `breakFirst` and `splitFuel` -/

theorem breakFirst_nil (sep : List Char) (f : Nat) : breakFirst sep f [] = none := by
  cases f <;> rfl

theorem breakFirst_cons (sep : List Char) (f : Nat) (c : Char) (rest : List Char) :
    breakFirst sep (f + 1) (c :: rest) =
      if sep.isPrefixOf (c :: rest) then some ([], (c :: rest).drop sep.length)
      else (breakFirst sep f rest).map (fun p => (c :: p.1, p.2)) := rfl

theorem splitFuel_succ (sep : List Char) (f : Nat) (l : List Char) :
    splitFuel sep (f + 1) l =
      match breakFirst sep l.length l with
      | none => [l]
      | some (x, y) => x :: splitFuel sep f y := rfl

theorem breakFirst_eq_append {sep : List Char} :
    ∀ {f l x y}, breakFirst sep f l = some (x, y) → l = x ++ sep ++ y := by
  intro f
  induction f with
  | zero =>
    intro l x y h
    cases l with
    | nil => rw [breakFirst_nil] at h; exact absurd h (by simp)
    | cons c rest => exact absurd h (by simp [breakFirst])
  | succ f ih =>
    intro l x y h
    cases l with
    | nil => rw [breakFirst_nil] at h; exact absurd h (by simp)
    | cons c rest =>
      rw [breakFirst_cons] at h
      by_cases hp : sep.isPrefixOf (c :: rest)
      · rw [if_pos hp] at h
        obtain ⟨t, ht⟩ := List.isPrefixOf_iff_prefix.mp hp
        simp only [Option.some.injEq, Prod.mk.injEq] at h
        obtain ⟨hx, hy⟩ := h
        subst hx
        subst hy
        rw [List.nil_append, ← ht, List.drop_left]
      · rw [if_neg hp] at h
        cases hb : breakFirst sep f rest with
        | none => rw [hb] at h; exact absurd h (by simp)
        | some p =>
          obtain ⟨x', y'⟩ := p
          rw [hb] at h
          simp only [Option.map_some', Option.some.injEq, Prod.mk.injEq] at h
          obtain ⟨hx, hy⟩ := h
          subst hx
          subst hy
          have := ih hb
          simp [this]

theorem breakFirst_length_lt {sep : List Char} (hs : sep ≠ []) :
    ∀ {f l x y}, breakFirst sep f l = some (x, y) → y.length < l.length := by
  intro f l x y h
  have heq := breakFirst_eq_append h
  subst heq
  have : 1 ≤ sep.length := by
    cases sep with
    | nil => exact absurd rfl hs
    | cons a t => simp
  simp only [List.length_append]
  omega

/-- When `sep` is a non-empty prefix of `l`, the first occurrence is at
position 0. -/
theorem breakFirst_of_isPrefix {sep l : List Char} (hs : sep ≠ [])
    (hp : sep.isPrefixOf l) (f : Nat) :
    breakFirst sep (f + 1) l = some ([], l.drop sep.length) := by
  cases l with
  | nil =>
    have h1 := List.isPrefixOf_iff_prefix.mp hp
    exact absurd (List.prefix_nil.mp h1) hs
  | cons c rest => rw [breakFirst_cons, if_pos hp]

theorem breakFirst_append {sep : List Char} (hs : sep ≠ []) :
    ∀ {a b : List Char} {f : Nat}, FirstOcc sep a b → a.length < f →
      breakFirst sep f (a ++ sep ++ b) = some (a, b) := by
  intro a
  induction a with
  | nil =>
    intro b f _ hf
    obtain ⟨f', rfl⟩ : ∃ f', f = f' + 1 := ⟨f - 1, by omega⟩
    have hp : sep.isPrefixOf (sep ++ b) :=
      List.isPrefixOf_iff_prefix.mpr ⟨b, rfl⟩
    have h := breakFirst_of_isPrefix hs (l := sep ++ b) hp f'
    rw [List.nil_append]
    rw [h, List.drop_left]
  | cons c a' ih =>
    intro b f hocc hf
    obtain ⟨f', rfl⟩ : ∃ f', f = f' + 1 := ⟨f - 1, by omega⟩
    have hnot : ¬ sep.isPrefixOf (c :: (a' ++ sep ++ b)) := by
      have h0 := hocc 0 (by simp)
      simpa using h0
    have hocc' : FirstOcc sep a' b := by
      intro i hi
      have h1 := hocc (i + 1) (by simp only [List.length_cons]; omega)
      simpa using h1
    have hrec := ih hocc' (f := f') (by simp only [List.length_cons] at hf; omega)
    show breakFirst sep (f' + 1) (c :: (a' ++ sep ++ b)) = _
    rw [breakFirst_cons, if_neg hnot, hrec]
    rfl

theorem breakFirst_none {sep : List Char} :
    ∀ {f l}, l.length ≤ f → NoOcc sep l → breakFirst sep f l = none := by
  intro f
  induction f with
  | zero =>
    intro l hl _
    cases l with
    | nil => rfl
    | cons c rest => simp at hl
  | succ f ih =>
    intro l hl hno
    cases l with
    | nil => rfl
    | cons c rest =>
      have h0 : ¬ sep.isPrefixOf (c :: rest) := by
        have := hno 0
        simpa using this
      rw [breakFirst_cons, if_neg h0]
      have hrest : NoOcc sep rest := by
        intro i
        have := hno (i + 1)
        simpa using this
      rw [ih (by simp only [List.length_cons] at hl; omega) hrest]
      rfl

theorem splitFuel_congr {sep : List Char} (hs : sep ≠ []) :
    ∀ {f₁ f₂ l}, l.length < f₁ → l.length < f₂ →
      splitFuel sep f₁ l = splitFuel sep f₂ l := by
  intro f₁
  induction f₁ with
  | zero => intro f₂ l h1 _; omega
  | succ f₁ ih =>
    intro f₂ l h1 h2
    obtain ⟨f₂', rfl⟩ : ∃ f', f₂ = f' + 1 := ⟨f₂ - 1, by omega⟩
    rw [splitFuel_succ, splitFuel_succ]
    cases hb : breakFirst sep l.length l with
    | none => rfl
    | some p =>
      obtain ⟨x, y⟩ := p
      have hy := breakFirst_length_lt hs hb
      have h := @ih f₂' y (by omega) (by omega)
      show x :: splitFuel sep f₁ y = x :: splitFuel sep f₂' y
      rw [h]

theorem jsSplitCh_append {sep a b : List Char} (hs : sep ≠ [])
    (hocc : FirstOcc sep a b) :
    jsSplitCh sep (a ++ sep ++ b) = a :: jsSplitCh sep b := by
  have hs1 : 1 ≤ sep.length := by
    cases sep with
    | nil => exact absurd rfl hs
    | cons x t => simp
  rw [jsSplitCh, splitFuel_succ]
  have hb := breakFirst_append hs hocc (f := (a ++ sep ++ b).length)
    (by simp only [List.length_append]; omega)
  rw [hb]
  show a :: splitFuel sep (a ++ sep ++ b).length b = a :: jsSplitCh sep b
  rw [jsSplitCh]
  have := @splitFuel_congr sep hs ((a ++ sep ++ b).length) (b.length + 1) b
    (by simp only [List.length_append]; omega) (by omega)
  rw [this]

theorem jsSplitCh_single {sep l : List Char} (hno : NoOcc sep l) :
    jsSplitCh sep l = [l] := by
  rw [jsSplitCh, splitFuel_succ]
  rw [breakFirst_none (by omega) hno]

theorem jsSplitCh_ne_nil {sep l : List Char} : jsSplitCh sep l ≠ [] := by
  rw [jsSplitCh, splitFuel_succ]
  cases hb : breakFirst sep l.length l with
  | none => simp
  | some p => obtain ⟨x, y⟩ := p; simp

/-!
## Claim C2 — explicit compound selector
-/

/-- C2 counterexample: the requested model `"OpenAI,GPT-4"` with a
configured provider `"openai"` supporting `"gpt-4"` does *not* resolve to
`"openai,gpt-4"`: the source compares `p.name.toLowerCase()` with the raw
requested provider part (`"OpenAI"`), which can never match, so the
original string is returned unchanged. -/
theorem C2_counterexample :
    getUseModel
      [{ name := "openai", api_key := .undef, apiKey := .undef, models := some ["gpt-4"] }]
      { Providers := some [0], Router := { default := "D" } }
      { model := "OpenAI,GPT-4" } 0 none
      = .ok ("OpenAI,GPT-4", { model := "OpenAI,GPT-4" }) ∧
    ("OpenAI,GPT-4" : String) ≠ "openai,gpt-4" := by
  exact ⟨rfl, by decide⟩

/-- C2 (amended): for a requested model containing the comma separator,
the lookup matches a configured provider whose *stored name lowercased
equals the requested provider part as given* (so matching is
case-insensitive in the stored configuration only; the requested parts must
already be lowercase), and likewise for the model part; on success the
canonical `"provider,model"` string uses the stored casing — unless the
matched stored model name is the empty string, which is falsy and fails the
`finalProvider && finalModel` guard.  On every failed lookup the original
requested string is returned unchanged: when no provider matches, when a
matching provider's model list has no match, and when the matched stored
model name is empty. -/
theorem C2_compound_amended
    (store : Store) (config : Config) (body : ReqBody) (tokenCount : Nat)
    (lastUsage : Option Usage) (refs : List Nat)
    (hP : config.Providers = some refs)
    (hcomma : jsIncludes body.model "," = true) :
    (∀ fp fm,
      (refs.filterMap (fun i => store.get? i)).find?
          (fun p => jsToLower p.name = (jsSplit body.model ",").headD "") = some fp →
      (fp.models.getD []).find?
          (fun m => jsToLower m = ((jsSplit body.model ",").get? 1).getD "") = some fm →
      fm ≠ "" →
      getUseModel store config body tokenCount lastUsage = .ok (fp.name ++ "," ++ fm, body)) ∧
    ((refs.filterMap (fun i => store.get? i)).find?
        (fun p => jsToLower p.name = (jsSplit body.model ",").headD "") = none →
      getUseModel store config body tokenCount lastUsage = .ok (body.model, body)) ∧
    (∀ fp,
      (refs.filterMap (fun i => store.get? i)).find?
          (fun p => jsToLower p.name = (jsSplit body.model ",").headD "") = some fp →
      (fp.models.getD []).find?
          (fun m => jsToLower m = ((jsSplit body.model ",").get? 1).getD "") = none →
      getUseModel store config body tokenCount lastUsage = .ok (body.model, body)) ∧
    (∀ fp,
      (refs.filterMap (fun i => store.get? i)).find?
          (fun p => jsToLower p.name = (jsSplit body.model ",").headD "") = some fp →
      (fp.models.getD []).find?
          (fun m => jsToLower m = ((jsSplit body.model ",").get? 1).getD "") = some "" →
      getUseModel store config body tokenCount lastUsage = .ok (body.model, body)) := by
  refine ⟨?_, ?_, ?_, ?_⟩
  · intro fp fm h1 h2 h3
    simp only [getUseModel, hcomma, if_true, hP, h1, Option.some_bind, h2]
    rw [if_pos h3]
    rfl
  · intro h1
    simp only [getUseModel, hcomma, if_true, hP, h1, Option.none_bind]
    rfl
  · intro fp h1 h2
    simp only [getUseModel, hcomma, if_true, hP, h1, Option.some_bind, h2]
    rfl
  · intro fp h1 h2
    simp only [getUseModel, hcomma, if_true, hP, h1, Option.some_bind, h2]
    rw [if_neg (fun h => h rfl)]
    rfl

/-- C2 witness: the amended lookup at concrete inputs — requested
`"openai,gpt-4"` against stored provider `"OpenAI"` with model `"GPT-4"`
resolves to the stored casing `"OpenAI,GPT-4"`; requested `"openai,gpt-5"`
against the same provider matches the provider but no model, and is
returned unchanged. -/
theorem C2_witness :
    getUseModel
      [{ name := "OpenAI", api_key := .undef, apiKey := .undef, models := some ["GPT-4"] }]
      { Providers := some [0], Router := { default := "D" } }
      { model := "openai,gpt-4" } 0 none
      = .ok ("OpenAI,GPT-4", { model := "openai,gpt-4" }) ∧
    getUseModel
      [{ name := "OpenAI", api_key := .undef, apiKey := .undef, models := some ["GPT-4"] }]
      { Providers := some [0], Router := { default := "D" } }
      { model := "openai,gpt-5" } 0 none
      = .ok ("openai,gpt-5", { model := "openai,gpt-5" }) := by
  constructor
  · exact (C2_compound_amended
        [{ name := "OpenAI", api_key := .undef, apiKey := .undef, models := some ["GPT-4"] }]
        { Providers := some [0], Router := { default := "D" } }
        { model := "openai,gpt-4" } 0 none [0] rfl rfl).1
      { name := "OpenAI", api_key := .undef, apiKey := .undef, models := some ["GPT-4"] }
      "GPT-4" rfl rfl (by decide)
  · exact (C2_compound_amended
        [{ name := "OpenAI", api_key := .undef, apiKey := .undef, models := some ["GPT-4"] }]
        { Providers := some [0], Router := { default := "D" } }
        { model := "openai,gpt-5" } 0 none [0] rfl rfl).2.2.1
      { name := "OpenAI", api_key := .undef, apiKey := .undef, models := some ["GPT-4"] }
      rfl rfl

/-!
## Claim C3 — long-context override
-/

theorem OptStr.truthy_eq_true_iff (o : Option String) :
    OptStr.truthy o = true ↔ ∃ s, o = some s ∧ s ≠ "" := by
  cases o <;> simp [OptStr.truthy]

/-- Unfolding of `getUseModel` once the compound rule does not apply. -/
theorem getUseModel_not_compound (store : Store) (config : Config)
    (body : ReqBody) (tokenCount : Nat) (lastUsage : Option Usage)
    (hnc : jsIncludes body.model "," = false) :
    getUseModel store config body tokenCount lastUsage =
      if (lastUsageGuard (jsThreshold config.Router.longContextThreshold) tokenCount lastUsage
          || decide (tokenCount > jsThreshold config.Router.longContextThreshold))
          && OptStr.truthy config.Router.longContext then
        pure (config.Router.longContext.getD "", body)
      else
        match subagentDirective body with
        | some (m, b') => pure (m, b')
        | none => (laterRules config body).map (fun m => (m, body)) := by
  simp only [getUseModel, hnc, Bool.false_eq_true, if_false]

theorem lastUsageGuard_eq_true_iff (threshold tokenCount : Nat) (lu : Option Usage) :
    lastUsageGuard threshold tokenCount lu = true ↔
      ∃ u, lu = some u ∧ u.input_tokens > threshold ∧ tokenCount > 20000 := by
  cases lu <;> simp [lastUsageGuard]

/-- The possible successful results of rules 4–7. -/
theorem laterRules_ok_cases (config : Config) (body : ReqBody) (r : String)
    (h : laterRules config body = .ok r) :
    config.Router.background = some r ∨ config.Router.think = some r ∨
    config.Router.webSearch = some r ∨ config.Router.default = r := by
  unfold laterRules at h
  split_ifs at h with h1 h2
  · obtain ⟨s, hs, _⟩ := (OptStr.truthy_eq_true_iff _).mp h1.2
    left
    rw [hs] at h ⊢
    simp only [Option.getD_some, Except.ok.injEq] at h
    rw [h]
  · obtain ⟨s, hs, _⟩ := (OptStr.truthy_eq_true_iff _).mp h2.2
    right; left
    rw [hs] at h ⊢
    simp only [Option.getD_some, Except.ok.injEq] at h
    rw [h]
  · cases hw : webSearchToolHit body.tools with
    | error e => rw [hw] at h; exact absurd h (by simp [Except.bind])
    | ok hit =>
      rw [hw] at h
      simp only [Except.bind] at h
      split_ifs at h with h3
      · obtain ⟨s, hs, _⟩ := (OptStr.truthy_eq_true_iff _).mp h3.2
        right; right; left
        rw [hs] at h ⊢
        simp only [Option.getD_some, Except.ok.injEq] at h
        rw [h]
      · right; right; right
        simp only [Except.ok.injEq] at h
        rw [h]

/-- C3: for a non-compound request (with the subagent rule not applicable
and the long-context model distinct from every other configured model so
that "is returned" identifies the rule), the long-context model is the
selected model exactly when it is configured and either (a) prior session
usage exists with `input_tokens` above the effective threshold and the
current `tokenCount` exceeds 20000, or (b) the current `tokenCount`
exceeds the effective threshold; the effective threshold defaults to 60000
when not configured (`jsThreshold none = 60000`). -/
theorem C3_long_context
    (store : Store) (config : Config) (body : ReqBody) (tokenCount : Nat)
    (lastUsage : Option Usage) (lc : String)
    (hnc : jsIncludes body.model "," = false)
    (hlc : config.Router.longContext = some lc) (hlcne : lc ≠ "")
    (hsub : subagentDirective body = none)
    (hbg : config.Router.background ≠ some lc)
    (hthink : config.Router.think ≠ some lc)
    (hws : config.Router.webSearch ≠ some lc)
    (hdef : config.Router.default ≠ lc) :
    getUseModel store config body tokenCount lastUsage = .ok (lc, body) ↔
      ((∃ u, lastUsage = some u ∧
          u.input_tokens > jsThreshold config.Router.longContextThreshold ∧
          tokenCount > 20000) ∨
        tokenCount > jsThreshold config.Router.longContextThreshold) := by
  have htr : OptStr.truthy config.Router.longContext = true := by
    rw [hlc]
    simpa [OptStr.truthy] using hlcne
  rw [getUseModel_not_compound store config body tokenCount lastUsage hnc]
  constructor
  · intro h
    split_ifs at h with hcond
    · have hg := (Bool.and_eq_true _ _).mp hcond |>.1
      rcases Bool.or_eq_true_iff.mp hg with hl | hr
      · exact Or.inl ((lastUsageGuard_eq_true_iff _ _ _).mp hl)
      · right
        simpa using hr
    · rw [hsub] at h
      cases hlr : laterRules config body with
      | error e => rw [hlr] at h; exact absurd h (by simp [Except.map])
      | ok r =>
        rw [hlr] at h
        have hr1 : r = lc := by simpa [Except.map] using h
        subst hr1
        rcases laterRules_ok_cases config body r hlr with hc | hc | hc | hc
        · exact absurd hc hbg
        · exact absurd hc hthink
        · exact absurd hc hws
        · exact absurd hc hdef
  · intro h
    have hcond : (lastUsageGuard (jsThreshold config.Router.longContextThreshold) tokenCount lastUsage
        || decide (tokenCount > jsThreshold config.Router.longContextThreshold)) = true := by
      rcases h with hl | h1
      · exact Bool.or_eq_true_iff.mpr (Or.inl ((lastUsageGuard_eq_true_iff _ _ _).mpr hl))
      · simp [h1]
    rw [if_pos (by rw [hcond, htr]; rfl)]
    rw [hlc]
    rfl

/-- C3 witness: `tokenCount = 60001` at the default threshold with
long-context model `"long-model"` selects `"long-model"`, while
`tokenCount = 59999` with no prior session usage falls through to the
default model `"def-model"`. -/
theorem C3_witness :
    getUseModel [] { Router := { default := "def-model", longContext := some "long-model" } }
      { model := "m" } 60001 none = .ok ("long-model", { model := "m" }) ∧
    getUseModel [] { Router := { default := "def-model", longContext := some "long-model" } }
      { model := "m" } 59999 none = .ok ("def-model", { model := "m" }) := by
  constructor
  · exact (C3_long_context []
      { Router := { default := "def-model", longContext := some "long-model" } }
      { model := "m" } 60001 none "long-model" rfl rfl (by decide) rfl
      (by simp) (by simp) (by simp) (by decide)).mpr (Or.inr (by decide))
  · rfl

/-!
## Claim C9 — subagent directive
-/

/-- The subagent extraction on a decomposed segment text: when the second
segment's text is `open ++ g ++ close ++ after` with the exhibited `close`
occurrence being the first one (the non-greedy match), the directive
resolves to `g` and strips the whole marker-delimited prefix. -/
theorem subagentDirective_spec (body : ReqBody) (seg : Segment)
    (g after : List Char)
    (hseg : body.system.get? 1 = some seg)
    (htext : seg.text.data =
      subagentOpenTag.data ++ g ++ subagentCloseTag.data ++ after)
    (hfirst : FirstOcc subagentCloseTag.data g after) :
    subagentDirective body = some (⟨g⟩,
      { body with system := body.system.set 1 { seg with text := ⟨after⟩ } }) := by
  have hclose : subagentCloseTag.data ≠ [] := by decide
  have hlen : 1 < body.system.length := by
    rcases List.get?_eq_some.mp hseg with ⟨h, -⟩
    exact h
  have hassoc : seg.text.data =
      subagentOpenTag.data ++ (g ++ (subagentCloseTag.data ++ after)) := by
    rw [htext]
    simp [List.append_assoc]
  have hstart : jsStartsWith seg.text subagentOpenTag = true := by
    unfold jsStartsWith
    exact List.isPrefixOf_iff_prefix.mpr ⟨g ++ (subagentCloseTag.data ++ after), hassoc.symm⟩
  have hdrop : seg.text.data.drop subagentOpenTag.data.length =
      g ++ subagentCloseTag.data ++ after := by
    rw [hassoc, List.drop_left, List.append_assoc]
  have hflen : g.length < seg.text.data.length := by
    rw [htext]
    simp only [List.length_append]
    have : 0 < subagentCloseTag.data.length := by decide
    omega
  have hbf : breakFirst subagentCloseTag.data seg.text.data.length
      (seg.text.data.drop subagentOpenTag.data.length) = some (g, after) := by
    rw [hdrop]
    exact breakFirst_append hclose hfirst hflen
  simp only [subagentDirective, hseg]
  rw [if_pos ⟨hlen, hstart⟩, hbf]
  -- the replacement removes the matched prefix
  have hpatdata : (subagentOpenTag ++ (⟨g⟩ : String) ++ subagentCloseTag).data =
      subagentOpenTag.data ++ g ++ subagentCloseTag.data := by
    simp [String.data_append]
  have hrepl : jsReplaceFirst seg.text
      (subagentOpenTag ++ (⟨g⟩ : String) ++ subagentCloseTag) "" = (⟨after⟩ : String) := by
    unfold jsReplaceFirst
    rw [hpatdata]
    have hpre : (subagentOpenTag.data ++ g ++ subagentCloseTag.data).isPrefixOf
        seg.text.data = true := by
      apply List.isPrefixOf_iff_prefix.mpr
      exact ⟨after, by rw [htext]⟩
    have hne : (subagentOpenTag.data ++ g ++ subagentCloseTag.data) ≠ [] := by
      simp [subagentOpenTag]
    obtain ⟨f, hf⟩ : ∃ f, seg.text.data.length = f + 1 := by
      refine ⟨seg.text.data.length - 1, ?_⟩
      rw [htext]
      simp only [List.length_append]
      have : 0 < subagentOpenTag.data.length := by decide
      omega
    rw [hf, breakFirst_of_isPrefix hne hpre f]
    have : seg.text.data.drop (subagentOpenTag.data ++ g ++ subagentCloseTag.data).length
        = after := by
      have h2 : seg.text.data =
          (subagentOpenTag.data ++ g ++ subagentCloseTag.data) ++ after := by
        rw [htext]
      rw [h2, List.drop_left]
    rw [this]
    rfl
  simp only [hrepl]

/-- C9: when the system prompt has at least two segments, the second
segment's text begins with the opening subagent marker and contains the
closing marker (decomposition `open ++ g ++ close ++ after` whose exhibited
closing occurrence is the first — the non-greedy, dot-matches-newline
match), and the earlier rules do not fire (non-compound model, no prior
usage, token count within the threshold), the enclosed identifier `g` is
returned as the model and the whole marker-delimited substring is removed
from the segment, leaving `after` intact. -/
theorem C9_subagent
    (store : Store) (config : Config) (body : ReqBody) (tokenCount : Nat)
    (lastUsage : Option Usage) (seg : Segment) (g after : List Char)
    (hnc : jsIncludes body.model "," = false)
    (hlu : lastUsage = none)
    (hth : tokenCount ≤ jsThreshold config.Router.longContextThreshold)
    (hseg : body.system.get? 1 = some seg)
    (htext : seg.text.data =
      subagentOpenTag.data ++ g ++ subagentCloseTag.data ++ after)
    (hfirst : FirstOcc subagentCloseTag.data g after) :
    getUseModel store config body tokenCount lastUsage =
      .ok (⟨g⟩, { body with system := body.system.set 1 { seg with text := ⟨after⟩ } }) := by
  subst hlu
  rw [getUseModel_not_compound store config body tokenCount none hnc]
  rw [if_neg (by simp [lastUsageGuard, Nat.not_lt.mpr hth])]
  rw [subagentDirective_spec body seg g after hseg htext hfirst]
  rfl

/-- C9 witness: the concrete segment
`"<CCR-SUBAGENT-MODEL>gpt-x</CCR-SUBAGENT-MODEL> rest"` resolves to model
`"gpt-x"` and the segment text becomes `" rest"`. -/
theorem C9_witness :
    getUseModel [] { Router := { default := "D" } }
      { model := "m", system := [⟨"text", "a"⟩,
          ⟨"text", "<CCR-SUBAGENT-MODEL>gpt-x</CCR-SUBAGENT-MODEL> rest"⟩] }
      0 none
      = .ok ("gpt-x", { model := "m", system := [⟨"text", "a"⟩, ⟨"text", " rest"⟩] }) := by
  exact C9_subagent [] { Router := { default := "D" } }
    { model := "m", system := [⟨"text", "a"⟩,
        ⟨"text", "<CCR-SUBAGENT-MODEL>gpt-x</CCR-SUBAGENT-MODEL> rest"⟩] }
    0 none ⟨"text", "<CCR-SUBAGENT-MODEL>gpt-x</CCR-SUBAGENT-MODEL> rest"⟩
    "gpt-x".data " rest".data rfl rfl (by decide) rfl (by decide) (by decide)

/-!
## Claim C10 — compound selector ignores the lowercase provider list
-/

/-- Unfolding of the router pipeline with the local bindings inlined. -/
theorem router_eq (encode : String → Nat) (fs : String → Except String String)
    (crequire : String → Except String CRFn) (cache : String → Option Usage)
    (hasProvider : Option (String → Bool)) (requestId : Nat)
    (store : Store) (config : Config) (req : Req) :
    router encode fs crequire cache hasProvider requestId store config req =
      (sessionPhase (bearerPhase hasProvider requestId store req
          (collectProviderTargets store config)).2.1).bind (fun req2 =>
        (rewritePhase fs config req2).bind (fun req3 =>
          Except.ok
            ⟨(routerTryPhase encode crequire
                (bearerPhase hasProvider requestId store req
                  (collectProviderTargets store config)).1 config req3
                (req2.sessionId.bind cache)).1,
             (bearerPhase hasProvider requestId store req
                (collectProviderTargets store config)).2.2.1 ++
               (routerTryPhase encode crequire
                 (bearerPhase hasProvider requestId store req
                   (collectProviderTargets store config)).1 config req3
                 (req2.sessionId.bind cache)).2,
             (bearerPhase hasProvider requestId store req
                (collectProviderTargets store config)).2.2.2⟩)) := rfl

/-- The overlay phase never changes the request body (it only records the
override list on the request). -/
theorem bearerPhase_req_body (hp : Option (String → Bool)) (rid : Nat)
    (store : Store) (req : Req) (targets : List PTarget) :
    (bearerPhase hp rid store req targets).2.1.body = req.body := by
  unfold bearerPhase
  split
  · split
    · simp only []
      split
      · split
        · rfl
        · rfl
      · rfl
    · rfl
  · rfl

/-- `sessionPhase` only ever writes `sessionId`. -/
theorem sessionPhase_ok_body (req r : Req) (h : sessionPhase req = .ok r) :
    r.body = req.body := by
  unfold sessionPhase at h
  split at h
  · cases h; rfl
  · cases h; rfl
  · split at h
    · split at h
      · split at h
        · cases h; rfl
        · cases h; rfl
      · exact Except.noConfusion h
    · cases h; rfl

/-- `rewritePhase` never changes the requested model. -/
theorem rewritePhase_ok_model (fs : String → Except String String)
    (config : Config) (req r : Req) (h : rewritePhase fs config req = .ok r) :
    r.body.model = req.body.model := by
  unfold rewritePhase at h
  split at h
  · cases h; rfl
  · split at h
    · cases hf : fs (config.REWRITE_SYSTEM_PROMPT.getD "") with
      | error e => rw [hf] at h; exact Except.noConfusion h
      | ok prompt =>
        rw [hf] at h
        simp only [Except.bind] at h
        cases h; rfl
    · cases h; rfl

/-- Without a configured custom-router path the custom step is skipped. -/
theorem customPhase_none (crequire : String → Except String CRFn)
    (config : Config) (req : Req) (tokenCount : Nat)
    (hcust : config.CUSTOM_ROUTER_PATH = none) :
    customPhase crequire config req tokenCount = (none, [], req) := by
  unfold customPhase
  rw [hcust]
  rfl

/-- A failing `require` of the custom router yields no model and a log
line. -/
theorem customPhase_require_error (crequire : String → Except String CRFn)
    (config : Config) (req : Req) (tokenCount : Nat) (path e : String)
    (hcust : config.CUSTOM_ROUTER_PATH = some path) (hpath : path ≠ "")
    (hcr : crequire path = .error e) :
    customPhase crequire config req tokenCount =
      (none, ["failed to load custom router: " ++ e], req) := by
  unfold customPhase
  rw [hcust]
  rw [if_pos (by simpa [OptStr.truthy] using hpath)]
  rw [show (some path).getD "" = path from rfl, hcr]

/-- A custom router that loads but throws when invoked yields no model and
the same log line as a load failure (one shared `catch`); `tokenCount` has
already been written onto the request. -/
theorem customPhase_invoke_error (crequire : String → Except String CRFn)
    (config : Config) (req : Req) (tokenCount : Nat) (path e : String)
    (fn : CRFn)
    (hcust : config.CUSTOM_ROUTER_PATH = some path) (hpath : path ≠ "")
    (hcr : crequire path = .ok fn)
    (hfn : fn { req with tokenCount := some tokenCount } config = .error e) :
    customPhase crequire config req tokenCount =
      (none, ["failed to load custom router: " ++ e],
       { req with tokenCount := some tokenCount }) := by
  unfold customPhase
  rw [hcust]
  rw [if_pos (by simpa [OptStr.truthy] using hpath)]
  simp only [Option.getD_some, hcr, hfn]

/-- Under `Providers = none` the compound branch throws the `find`
TypeError and the try-phase catch substitutes the default model. -/
theorem routerTryPhase_default (encode : String → Nat)
    (crequire : String → Except String CRFn) (store : Store) (config : Config)
    (req : Req) (lastUsage : Option Usage)
    (hP : config.Providers = none) (hcust : config.CUSTOM_ROUTER_PATH = none)
    (hcomma : jsIncludes req.body.model "," = true) :
    (routerTryPhase encode crequire store config req lastUsage).1.body.model =
      config.Router.default := by
  unfold routerTryPhase
  cases htc : calculateTokenCount encode req.body.messages (segsToJs req.body.system)
      req.body.tools with
  | error e => rfl
  | ok tc =>
    have hg : getUseModel store config req.body tc lastUsage =
        .error "TypeError: Cannot read properties of undefined (reading find)" := by
      simp only [getUseModel, hcomma, if_true, hP]
    simp only [customPhase_none crequire config req tc hcust, OptStr.truthy,
      Bool.false_eq_true, if_false, hg]

/-- C10: the compound selector consults only the capitalized `Providers`
configuration list.  (1) `getUseModel` is invariant under arbitrary changes
to the lowercase `providers` list, so a provider declared solely there can
never satisfy the compound lookup; and (2) when `Providers` is absent
entirely, the compound branch throws (reading `find` of `undefined`) and
the router's top-level handler writes the configured default model instead
of returning the original requested string. -/
theorem C10_compound_uses_Providers_only :
    (∀ (store : Store) (config : Config) (body : ReqBody) (tokenCount : Nat)
        (lastUsage : Option Usage) (ps' : Option (List Nat)),
      getUseModel store config body tokenCount lastUsage =
        getUseModel store { config with providers := ps' } body tokenCount lastUsage) ∧
    (∀ (encode : String → Nat) (fs : String → Except String String)
        (crequire : String → Except String CRFn) (cache : String → Option Usage)
        (hasProvider : Option (String → Bool)) (requestId : Nat)
        (store : Store) (config : Config) (req : Req) (out : RouterOut),
      config.Providers = none →
      config.CUSTOM_ROUTER_PATH = none →
      jsIncludes req.body.model "," = true →
      router encode fs crequire cache hasProvider requestId store config req = .ok out →
      out.req.body.model = config.Router.default) := by
  constructor
  · intro store config body tokenCount lastUsage ps'
    cases config
    rfl
  · intro encode fs crequire cache hasProvider requestId store config req out
      hP hcust hcomma hrout
    rw [router_eq] at hrout
    cases hs : sessionPhase (bearerPhase hasProvider requestId store req
        (collectProviderTargets store config)).2.1 with
    | error e => rw [hs] at hrout; exact Except.noConfusion hrout
    | ok req2 =>
      rw [hs] at hrout
      simp only [Except.bind] at hrout
      cases hr : rewritePhase fs config req2 with
      | error e => rw [hr] at hrout; exact Except.noConfusion hrout
      | ok req3 =>
        rw [hr] at hrout
        simp only [Except.bind, Except.ok.injEq] at hrout
        have hb2 : req2.body = (bearerPhase hasProvider requestId store req
            (collectProviderTargets store config)).2.1.body := sessionPhase_ok_body _ _ hs
        have hb2m : req2.body.model = req.body.model := by
          rw [hb2, bearerPhase_req_body]
        have hm3 : req3.body.model = req.body.model := by
          rw [rewritePhase_ok_model fs config req2 req3 hr, hb2m]
        have hout : out.req = (routerTryPhase encode crequire
            (bearerPhase hasProvider requestId store req
              (collectProviderTargets store config)).1 config req3
            (req2.sessionId.bind cache)).1 := by
          rw [← hrout]
        rw [hout]
        exact routerTryPhase_default encode crequire _ config req3 _ hP hcust
          (by rw [hm3]; exact hcomma)

/-- C10 witness: with `Providers` absent, a compound request `"a,b"` leaves
the router successful with the default model written; and a provider
declared solely in the lowercase list is invisible to the compound lookup
(the original string is returned unchanged). -/
theorem C10_witness :
    (router String.length (fun _ => .ok "P") (fun _ => .error "nocr")
        (fun _ => none) none 0 []
        { Providers := none, Router := { default := "D" } }
        { body := { model := "a,b" } }).map (fun out => out.req.body.model) = .ok "D" ∧
    getUseModel
      [{ name := "lowercase-only", api_key := .undef, apiKey := .undef,
         models := some ["m1"] }]
      { Providers := some [], providers := some [0], Router := { default := "D" } }
      { model := "lowercase-only,m1" } 0 none
      = .ok ("lowercase-only,m1", { model := "lowercase-only,m1" }) := by
  constructor
  · have h := C10_compound_uses_Providers_only.2 String.length (fun _ => .ok "P")
      (fun _ => .error "nocr") (fun _ => none) none 0 []
      { Providers := none, Router := { default := "D" } }
      { body := { model := "a,b" } }
      ⟨{ body := { model := "D" } }, ["Error in router middleware: TypeError: Cannot read properties of undefined (reading find)"], []⟩
      rfl rfl rfl rfl
    exact congrArg Except.ok h
  · exact (C10_compound_uses_Providers_only.1
      [{ name := "lowercase-only", api_key := .undef, apiKey := .undef,
         models := some ["m1"] }]
      { Providers := some [], providers := some [0], Router := { default := "D" } }
      { model := "lowercase-only,m1" } 0 none none).trans rfl

/-!
## Claim C7 — token estimator safety
-/

theorem jsGet_ok (v : JSVal) (k : String) (h : v.isNullish = false) :
    jsGet v k = .ok (jsGetD v k) := by
  cases v with
  | undef => exact absurd h (by simp [JSVal.isNullish])
  | null => exact absurd h (by simp [JSVal.isNullish])
  | bool b => rfl
  | num n => rfl
  | str s => rfl
  | arr xs => rfl
  | obj fields => rfl

/-- Accumulating `forEach` over an `Except`: if every element succeeds, the
whole fold succeeds. -/
theorem foldlM_add_ok (f : JSVal → Except String Nat) (l : List JSVal)
    (h : ∀ x ∈ l, ∃ n, f x = .ok n) :
    ∀ acc : Nat, ∃ n,
      (l.foldlM (fun acc x => do return acc + (← f x)) acc : Except String Nat) = .ok n := by
  induction l with
  | nil => intro acc; exact ⟨acc, rfl⟩
  | cons x xs ih =>
    intro acc
    obtain ⟨n, hn⟩ := h x (List.mem_cons_self x xs)
    obtain ⟨m, hm⟩ := ih (fun y hy => h y (List.mem_cons_of_mem x hy)) (acc + n)
    refine ⟨m, ?_⟩
    rw [List.foldlM_cons]
    simp only [hn, Except.bind, bind, pure, Except.pure]
    exact hm

theorem partTokens_ok (encode : String → Nat) (p : JSVal)
    (hp : p.isNullish = false) : ∃ n, partTokens encode p = .ok n := by
  unfold partTokens
  rw [jsGet_ok p "type" hp]
  simp only [bind, Except.bind]
  split_ifs
  · exact ⟨_, rfl⟩
  · exact ⟨_, rfl⟩
  · cases jsGetD p "content" with
    | undef => exact ⟨_, rfl⟩
    | null => exact ⟨_, rfl⟩
    | bool b => exact ⟨_, rfl⟩
    | num n => exact ⟨_, rfl⟩
    | str s => exact ⟨_, rfl⟩
    | arr xs => exact ⟨_, rfl⟩
    | obj fields => exact ⟨_, rfl⟩
  · exact ⟨_, rfl⟩

theorem messageTokens_ok (encode : String → Nat) (m : JSVal)
    (hm : wfMessage m = true) : ∃ n, messageTokens encode m = .ok n := by
  unfold wfMessage at hm
  rw [Bool.and_eq_true] at hm
  obtain ⟨hnn, hcontent⟩ := hm
  rw [Bool.not_eq_true'] at hnn
  unfold messageTokens
  rw [jsGet_ok m "content" hnn]
  simp only [bind, Except.bind]
  cases hc : jsGetD m "content" with
  | arr parts =>
    rw [hc] at hcontent
    refine foldlM_add_ok (partTokens encode) parts ?_ 0
    intro p hp
    have := (List.all_eq_true.mp hcontent) p hp
    rw [Bool.not_eq_true'] at this
    exact partTokens_ok encode p this
  | undef => exact ⟨_, rfl⟩
  | null => exact ⟨_, rfl⟩
  | bool b => exact ⟨_, rfl⟩
  | num n => exact ⟨_, rfl⟩
  | str s => exact ⟨_, rfl⟩
  | obj fields => exact ⟨_, rfl⟩

theorem systemItemTokens_ok (encode : String → Nat) (it : JSVal)
    (h : it.isNullish = false) : ∃ n, systemItemTokens encode it = .ok n := by
  unfold systemItemTokens
  rw [jsGet_ok it "type" h]
  simp only [bind, Except.bind]
  split_ifs
  · cases jsGetD it "text" with
    | undef => exact ⟨_, rfl⟩
    | null => exact ⟨_, rfl⟩
    | bool b => exact ⟨_, rfl⟩
    | num n => exact ⟨_, rfl⟩
    | str s => exact ⟨_, rfl⟩
    | arr xs => exact ⟨_, rfl⟩
    | obj fields => exact ⟨_, rfl⟩
  · exact ⟨_, rfl⟩

theorem toolTokens_ok (encode : String → Nat) (t : JSVal)
    (h : t.isNullish = false) : ∃ n, toolTokens encode t = .ok n := by
  unfold toolTokens
  rw [jsGet_ok t "description" h]
  simp only [bind, Except.bind]
  exact ⟨_, rfl⟩

/-- C7 (amended): the token estimator terminates with a count (a natural
number, hence ≥ 0) for every input in which no element of `messages`, of an
array-valued message `content`, of an array-valued `system` or of `tools`
is `null`/`undefined` and `tools` is falsy or an array; and a content part
with an unrecognized `type` tag contributes zero tokens.  (The estimator
*can* raise on shapes outside this set — see the counterexample.) -/
theorem C7_estimator_amended :
    (∀ (encode : String → Nat) (messages system tools : JSVal),
      wfMessages messages = true → wfSystem system = true → wfTools tools = true →
      ∃ n : Nat, calculateTokenCount encode messages system tools = .ok n) ∧
    (∀ (encode : String → Nat) (p : JSVal), p.isNullish = false →
      (jsGetD p "type").isStr "text" = false →
      (jsGetD p "type").isStr "tool_use" = false →
      (jsGetD p "type").isStr "tool_result" = false →
      partTokens encode p = .ok 0) := by
  constructor
  · intro encode messages system tools h1 h2 h3
    unfold calculateTokenCount
    obtain ⟨n1, hn1⟩ : ∃ n, messagesTokens encode messages = .ok n := by
      unfold messagesTokens
      cases hm : messages with
      | arr ms =>
        unfold wfMessages at h1
        rw [hm] at h1
        refine foldlM_add_ok (messageTokens encode) ms ?_ 0
        intro x hx
        exact messageTokens_ok encode x ((List.all_eq_true.mp h1) x hx)
      | undef => exact ⟨_, rfl⟩
      | null => exact ⟨_, rfl⟩
      | bool b => exact ⟨_, rfl⟩
      | num n => exact ⟨_, rfl⟩
      | str s => exact ⟨_, rfl⟩
      | obj fields => exact ⟨_, rfl⟩
    obtain ⟨n2, hn2⟩ : ∃ n, systemTokens encode system = .ok n := by
      unfold systemTokens
      cases hs : system with
      | arr items =>
        unfold wfSystem at h2
        rw [hs] at h2
        refine foldlM_add_ok (systemItemTokens encode) items ?_ 0
        intro x hx
        have hx2 := (List.all_eq_true.mp h2) x hx
        rw [Bool.not_eq_true'] at hx2
        exact systemItemTokens_ok encode x hx2
      | undef => exact ⟨_, rfl⟩
      | null => exact ⟨_, rfl⟩
      | bool b => exact ⟨_, rfl⟩
      | num n => exact ⟨_, rfl⟩
      | str s => exact ⟨_, rfl⟩
      | obj fields => exact ⟨_, rfl⟩
    obtain ⟨n3, hn3⟩ : ∃ n, toolsTokens encode tools = .ok n := by
      unfold toolsTokens
      cases ht : tools with
      | arr ts =>
        unfold wfTools at h3
        rw [ht] at h3
        split_ifs
        · refine foldlM_add_ok (toolTokens encode) ts ?_ 0
          intro x hx
          have hx2 := (List.all_eq_true.mp h3) x hx
          rw [Bool.not_eq_true'] at hx2
          exact toolTokens_ok encode x hx2
        · exact ⟨_, rfl⟩
      | undef => exact ⟨_, rfl⟩
      | null => exact ⟨_, rfl⟩
      | bool b =>
        unfold wfTools at h3
        rw [ht] at h3
        rw [Bool.not_eq_true'] at h3
        rw [if_neg (by rw [h3]; exact Bool.false_ne_true)]
        exact ⟨_, rfl⟩
      | num n =>
        unfold wfTools at h3
        rw [ht] at h3
        rw [Bool.not_eq_true'] at h3
        rw [if_neg (by rw [h3]; exact Bool.false_ne_true)]
        exact ⟨_, rfl⟩
      | str s =>
        unfold wfTools at h3
        rw [ht] at h3
        rw [Bool.not_eq_true'] at h3
        rw [if_neg (by rw [h3]; exact Bool.false_ne_true)]
        exact ⟨_, rfl⟩
      | obj fields =>
        unfold wfTools at h3
        rw [ht] at h3
        rw [Bool.not_eq_true'] at h3
        rw [if_neg (by rw [h3]; exact Bool.false_ne_true)]
        exact ⟨_, rfl⟩
    rw [hn1]
    simp only [bind, Except.bind]
    rw [hn2]
    rw [hn3]
    exact ⟨_, rfl⟩
  · intro encode p hnn h1 h2 h3
    unfold partTokens
    rw [jsGet_ok p "type" hnn]
    simp only [bind, Except.bind]
    rw [if_neg (by rw [h1]; exact Bool.false_ne_true)]
    rw [if_neg (by rw [h2]; exact Bool.false_ne_true)]
    rw [if_neg (by rw [h3]; exact Bool.false_ne_true)]
    rfl

/-- C7 counterexample: a *truthy non-array* `tools` value (here the number
1) makes the estimator raise — `tools.forEach` is not a function — so the
estimator does not treat every malformed shape as contributing zero. -/
theorem C7_counterexample :
    calculateTokenCount String.length (.arr []) .undef (.num 1)
      = .error "TypeError: tools.forEach is not a function" ∧
    (JSVal.num 1).truthy = true := ⟨rfl, rfl⟩

/-- C7 witness: the amended totality at a concrete well-formed input, and a
zero contribution from an unrecognized part type. -/
theorem C7_witness :
    (∃ n : Nat, calculateTokenCount String.length
      (.arr [.obj [("content", .str "hi")]]) (.str "sys")
      (.arr [.obj [("description", .str "d"), ("name", .str "n")]]) = .ok n) ∧
    partTokens String.length (.obj [("type", .str "image")]) = .ok 0 :=
  ⟨C7_estimator_amended.1 String.length
      (.arr [.obj [("content", .str "hi")]]) (.str "sys")
      (.arr [.obj [("description", .str "d"), ("name", .str "n")]]) rfl rfl rfl,
   C7_estimator_amended.2 String.length (.obj [("type", .str "image")]) rfl rfl rfl rfl⟩

/-!
## Claims C4 and C5 — credential overlay
-/

theorem get?_set_self' {α : Type} (l : List α) (i : Nat) (a : α)
    (h : i < l.length) : (l.set i a).get? i = some a := by
  rw [List.get?_eq_getElem?, List.getElem?_set_self', List.getElem?_eq_getElem h]
  rfl

theorem get?_set_ne' {α : Type} (l : List α) (i j : Nat) (a : α) (h : i ≠ j) :
    (l.set i a).get? j = l.get? j := by
  rw [List.get?_eq_getElem?, List.get?_eq_getElem?, List.getElem?_set_ne h]

theorem set_of_get?_eq {α : Type} :
    ∀ (l : List α) (i : Nat) (a : α), l.get? i = some a → l.set i a = l := by
  intro l
  induction l with
  | nil => intro i a h; simp at h
  | cons x xs ih =>
    intro i a h
    cases i with
    | zero => simp at h; simp [h]
    | succ i =>
      simp only [List.get?_cons_succ] at h
      simp [ih i a h]

theorem setKeys_length (s : Store) (token : String) (i : Nat) :
    (setKeys s token i).length = s.length := by
  unfold setKeys
  split
  · rfl
  · exact List.length_set s i _

theorem setKeys_get?_ne (s : Store) (token : String) (j i : Nat) (h : j ≠ i) :
    (setKeys s token j).get? i = s.get? i := by
  unfold setKeys
  split
  · rfl
  · exact get?_set_ne' s j i _ h

/-- A single `setKeys` only changes the two credential fields. -/
theorem setKeys_get?_pres (s : Store) (token : String) (j i : Nat)
    (r : ProviderObj) (h : (setKeys s token j).get? i = some r) :
    ∃ r0, s.get? i = some r0 ∧ r.name = r0.name ∧
      r._static_api_key = r0._static_api_key ∧
      r._dynamic_api_key_stack = r0._dynamic_api_key_stack ∧
      r.models = r0.models := by
  unfold setKeys at h
  split at h
  · exact ⟨r, h, rfl, rfl, rfl, rfl⟩
  · rename_i r1 hr1
    by_cases hij : i = j
    · subst hij
      have hlt : i < s.length := by
      -- from s.get? i = some r1
        rcases List.get?_eq_some.mp hr1 with ⟨hl, -⟩
        exact hl
      rw [get?_set_self' s i _ hlt] at h
      cases h
      exact ⟨r1, hr1, rfl, rfl, rfl, rfl⟩
    · rw [get?_set_ne' s j i _ (fun he => hij he.symm)] at h
      exact ⟨r, h, rfl, rfl, rfl, rfl⟩

/-- After a `setKeys` at `i`, a successful read at `i` reports the token
under both field spellings. -/
theorem setKeys_get?_self (s : Store) (token : String) (i : Nat)
    (r : ProviderObj) (h : (setKeys s token i).get? i = some r) :
    r.api_key = .str token ∧ r.apiKey = .str token := by
  unfold setKeys at h
  split at h
  · rename_i hnone
    rw [h] at hnone
    exact Option.noConfusion hnone
  · rename_i r1 hr1
    have hlt : i < s.length := by
      rcases List.get?_eq_some.mp hr1 with ⟨hl, -⟩
      exact hl
    rw [get?_set_self' s i _ hlt] at h
    cases h
    exact ⟨rfl, rfl⟩

theorem setKeys_foldl_length (token : String) :
    ∀ (refs : List Nat) (s : Store),
      (refs.foldl (fun s j => setKeys s token j) s).length = s.length := by
  intro refs
  induction refs with
  | nil => intro s; rfl
  | cons j rest ih =>
    intro s
    rw [List.foldl_cons, ih, setKeys_length]

theorem setKeys_foldl_not_mem (token : String) :
    ∀ (refs : List Nat) (s : Store) (i : Nat), i ∉ refs →
      (refs.foldl (fun s j => setKeys s token j) s).get? i = s.get? i := by
  intro refs
  induction refs with
  | nil => intro s i _; rfl
  | cons j rest ih =>
    intro s i hni
    rw [List.foldl_cons, ih _ _ (fun hm => hni (List.mem_cons_of_mem j hm)),
      setKeys_get?_ne s token j i (fun he => hni (he ▸ List.mem_cons_self j rest))]

theorem setKeys_foldl_pres (token : String) :
    ∀ (refs : List Nat) (s : Store) (i : Nat) (r : ProviderObj),
      (refs.foldl (fun s j => setKeys s token j) s).get? i = some r →
      ∃ r0, s.get? i = some r0 ∧ r.name = r0.name ∧
        r._static_api_key = r0._static_api_key ∧
        r._dynamic_api_key_stack = r0._dynamic_api_key_stack ∧
        r.models = r0.models := by
  intro refs
  induction refs with
  | nil => intro s i r h; exact ⟨r, h, rfl, rfl, rfl, rfl⟩
  | cons j rest ih =>
    intro s i r h
    rw [List.foldl_cons] at h
    obtain ⟨r1, hr1, e1, e2, e3, e4⟩ := ih (setKeys s token j) i r h
    obtain ⟨r0, hr0, f1, f2, f3, f4⟩ := setKeys_get?_pres s token j i r1 hr1
    exact ⟨r0, hr0, e1.trans f1, e2.trans f2, e3.trans f3, e4.trans f4⟩

/-- After folding `setKeys` over the reference list, every reference that
can still be read reports the token under both field spellings. -/
theorem setKeys_foldl_mem (token : String) :
    ∀ (refs : List Nat) (s : Store) (i : Nat), i ∈ refs →
      ∀ r, (refs.foldl (fun s j => setKeys s token j) s).get? i = some r →
        r.api_key = .str token ∧ r.apiKey = .str token := by
  intro refs
  induction refs with
  | nil => intro s i hmem; exact absurd hmem (List.not_mem_nil i)
  | cons j rest ih =>
    intro s i hmem r h
    rw [List.foldl_cons] at h
    by_cases hi : i ∈ rest
    · exact ih _ i hi r h
    · have hij : i = j := by
        rcases List.mem_cons.mp hmem with h' | h'
        · exact h'
        · exact absurd h' hi
      subst hij
      rw [setKeys_foldl_not_mem token rest _ i hi] at h
      exact setKeys_get?_self s token i r h

theorem jsCoalesce_null_ne_undef (a b : JsV) :
    jsCoalesce a (jsCoalesce b .null) ≠ .undef := by
  cases a <;> cases b <;> simp [jsCoalesce]

theorem snapStatic_stack (p : ProviderObj) :
    (snapStatic p)._dynamic_api_key_stack = p._dynamic_api_key_stack := by
  unfold snapStatic
  split <;> rfl

theorem snapStatic_api_key (p : ProviderObj) :
    (snapStatic p).api_key = p.api_key := by
  unfold snapStatic
  split <;> rfl

theorem snapStatic_apiKey (p : ProviderObj) :
    (snapStatic p).apiKey = p.apiKey := by
  unfold snapStatic
  split <;> rfl

theorem snapStatic_static (p : ProviderObj) :
    (snapStatic p)._static_api_key =
      if p._static_api_key = .undef
      then jsCoalesce p.api_key (jsCoalesce p.apiKey .null)
      else p._static_api_key := by
  unfold snapStatic
  split <;> simp [*]

theorem snapStatic_static_ne_undef (p : ProviderObj) :
    (snapStatic p)._static_api_key ≠ .undef := by
  rw [snapStatic_static]
  split
  · exact jsCoalesce_null_ne_undef _ _
  · assumption

/-- Destructuring the applied case of `overlayTarget`. -/
theorem overlayTarget_applied_spec (hasProvider : Option (String → Bool))
    (requestId : Nat) (token : String) (store : Store) (t : PTarget)
    (st' : Store) (ovr : PTarget × Nat) (nt : Option (String × String))
    (p0 : ProviderObj) (hp0 : store.get? t.primary = some p0)
    (h : overlayTarget hasProvider requestId token store t = (st', some ovr, nt)) :
    ovr = (t, requestId) ∧
    currentKeyOf (initStack (snapStatic p0)) ≠ .str token ∧
    st' = t.references.foldl (fun s i => setKeys s token i)
      (store.set t.primary (pushEntry (initStack (snapStatic p0)) requestId token)) := by
  simp only [overlayTarget, hp0] at h
  split at h
  · simp at h
  · rename_i hguard
    rw [Prod.mk.injEq, Prod.mk.injEq] at h
    obtain ⟨h1, h2, -⟩ := h
    cases h2
    exact ⟨rfl, hguard, h1.symm⟩

/-- C4: whenever the credential overlay applies a non-blank token `T` to a
target, (a) the recorded override is `{target, requestId}`; (b) every
physical reference of the target that can be read afterwards reports `T`
under both accepted field spellings `api_key` and `apiKey`; and (c) the
primary object's override stack is the old stack with `{requestId, newKey
:= T}` pushed on top, and `_static_api_key` is defined: it was snapshotted
from the pre-override credential exactly when it was still absent, and is
left untouched when already defined. -/
theorem C4_overlay_applied (hasProvider : Option (String → Bool))
    (requestId : Nat) (token : String) (store : Store) (t : PTarget)
    (st' : Store) (ovr : PTarget × Nat) (nt : Option (String × String))
    (p0 : ProviderObj)
    (_htok : token ≠ "")
    (hp0 : store.get? t.primary = some p0)
    (h : overlayTarget hasProvider requestId token store t = (st', some ovr, nt)) :
    ovr = (t, requestId) ∧
    (∀ i ∈ t.references, ∀ r, st'.get? i = some r →
      r.api_key = .str token ∧ r.apiKey = .str token) ∧
    (∃ p', st'.get? t.primary = some p' ∧
      p'._dynamic_api_key_stack =
        some ((p0._dynamic_api_key_stack.getD []) ++ [⟨requestId, token⟩]) ∧
      p'._static_api_key ≠ .undef ∧
      (p0._static_api_key = .undef →
        p'._static_api_key = jsCoalesce p0.api_key (jsCoalesce p0.apiKey .null)) ∧
      (p0._static_api_key ≠ .undef → p'._static_api_key = p0._static_api_key)) := by
  obtain ⟨hov, hguard, hst⟩ :=
    overlayTarget_applied_spec hasProvider requestId token store t st' ovr nt p0 hp0 h
  subst hst
  have hplt : t.primary < store.length := (List.get?_eq_some.mp hp0).1
  refine ⟨hov, ?_, ?_⟩
  · intro i hi r hr
    exact setKeys_foldl_mem token t.references _ i hi r hr
  · have hpush : (store.set t.primary
        (pushEntry (initStack (snapStatic p0)) requestId token)).get? t.primary =
        some (pushEntry (initStack (snapStatic p0)) requestId token) :=
      get?_set_self' _ _ _ hplt
    have hlen : (t.references.foldl (fun s i => setKeys s token i)
        (store.set t.primary (pushEntry (initStack (snapStatic p0)) requestId token))).length
        = store.length := by
      rw [setKeys_foldl_length, List.length_set]
    obtain ⟨p', hp'⟩ : ∃ p',
        (t.references.foldl (fun s i => setKeys s token i)
          (store.set t.primary (pushEntry (initStack (snapStatic p0)) requestId token))).get?
            t.primary = some p' := by
      cases hg : (t.references.foldl (fun s i => setKeys s token i)
          (store.set t.primary (pushEntry (initStack (snapStatic p0)) requestId token))).get?
            t.primary with
      | none =>
        have := List.get?_eq_none.mp hg
        rw [hlen] at this
        omega
      | some q => exact ⟨q, rfl⟩
    obtain ⟨r0, hr0, e1, e2, e3, e4⟩ :=
      setKeys_foldl_pres token t.references _ t.primary p' hp'
    rw [hpush] at hr0
    cases hr0
    refine ⟨p', hp', ?_, ?_, ?_, ?_⟩
    · rw [e3]
      show some (((initStack (snapStatic p0))._dynamic_api_key_stack.getD [])
        ++ [⟨requestId, token⟩]) = _
      rw [show (initStack (snapStatic p0))._dynamic_api_key_stack =
        some ((snapStatic p0)._dynamic_api_key_stack.getD []) from rfl]
      rw [snapStatic_stack]
      rfl
    · rw [e2]
      show (initStack (snapStatic p0))._static_api_key ≠ .undef
      rw [show (initStack (snapStatic p0))._static_api_key =
        (snapStatic p0)._static_api_key from rfl]
      exact snapStatic_static_ne_undef p0
    · intro hu
      rw [e2]
      show (initStack (snapStatic p0))._static_api_key = _
      rw [show (initStack (snapStatic p0))._static_api_key =
        (snapStatic p0)._static_api_key from rfl]
      rw [snapStatic_static, if_pos hu]
    · intro hu
      rw [e2]
      show (initStack (snapStatic p0))._static_api_key = _
      rw [show (initStack (snapStatic p0))._static_api_key =
        (snapStatic p0)._static_api_key from rfl]
      rw [snapStatic_static, if_neg hu]

/-- C4 witness: applying token `"tok"` to a target whose provider has
original credential `"k"`: the reference reports `"tok"` under both
spellings, the pushed entry tops the stack, and the original credential is
snapshotted. -/
theorem C4_witness :
    ∃ p', ((overlayTarget none 7 "tok"
        [{ name := "p1", api_key := .str "k", apiKey := .undef, models := none }]
        ⟨"p1", [0], 0⟩).1).get? 0 = some p' ∧
      p'.api_key = .str "tok" ∧ p'.apiKey = .str "tok" ∧
      p'._dynamic_api_key_stack = some [⟨7, "tok"⟩] ∧
      p'._static_api_key = .str "k" := by
  have h := C4_overlay_applied none 7 "tok"
    [{ name := "p1", api_key := .str "k", apiKey := .undef, models := none }]
    ⟨"p1", [0], 0⟩
    [{ name := "p1", api_key := .str "tok", apiKey := .str "tok", models := none,
       _static_api_key := .str "k", _dynamic_api_key_stack := some [⟨7, "tok"⟩] }]
    (⟨"p1", [0], 0⟩, 7) none
    { name := "p1", api_key := .str "k", apiKey := .undef, models := none }
    (by decide) rfl rfl
  obtain ⟨-, hrefs, p', hp', hstack, -, hsnap, -⟩ := h
  refine ⟨p', hp', ?_, ?_, ?_, ?_⟩
  · exact (hrefs 0 (by decide) p' hp').1
  · exact (hrefs 0 (by decide) p' hp').2
  · rw [hstack]; rfl
  · rw [hsnap rfl]; rfl

theorem initStack_of_some (p : ProviderObj) (l : List OvEntry)
    (h : p._dynamic_api_key_stack = some l) : initStack p = p := by
  unfold initStack
  rw [h]
  cases p
  simp_all

theorem snapStatic_of_defined (p : ProviderObj)
    (h : p._static_api_key ≠ .undef) : snapStatic p = p := by
  unfold snapStatic
  rw [if_neg h]

/-- After an applied override, the primary object carries the pushed entry
on top of its stack and a defined snapshot. -/
theorem overlayTarget_applied_primary (hasProvider : Option (String → Bool))
    (requestId : Nat) (token : String) (store : Store) (t : PTarget)
    (st' : Store) (ovr : PTarget × Nat) (nt : Option (String × String))
    (p0 : ProviderObj)
    (hp0 : store.get? t.primary = some p0)
    (h : overlayTarget hasProvider requestId token store t = (st', some ovr, nt)) :
    ∃ p', st'.get? t.primary = some p' ∧
      p'._dynamic_api_key_stack =
        some ((p0._dynamic_api_key_stack.getD []) ++ [⟨requestId, token⟩]) ∧
      p'._static_api_key ≠ .undef := by
  obtain ⟨-, hguard, hst⟩ :=
    overlayTarget_applied_spec hasProvider requestId token store t st' ovr nt p0 hp0 h
  subst hst
  have hplt : t.primary < store.length := (List.get?_eq_some.mp hp0).1
  have hpush : (store.set t.primary
      (pushEntry (initStack (snapStatic p0)) requestId token)).get? t.primary =
      some (pushEntry (initStack (snapStatic p0)) requestId token) :=
    get?_set_self' _ _ _ hplt
  have hlen : (t.references.foldl (fun s i => setKeys s token i)
      (store.set t.primary (pushEntry (initStack (snapStatic p0)) requestId token))).length
      = store.length := by
    rw [setKeys_foldl_length, List.length_set]
  obtain ⟨p', hp'⟩ : ∃ p',
      (t.references.foldl (fun s i => setKeys s token i)
        (store.set t.primary (pushEntry (initStack (snapStatic p0)) requestId token))).get?
          t.primary = some p' := by
    cases hg : (t.references.foldl (fun s i => setKeys s token i)
        (store.set t.primary (pushEntry (initStack (snapStatic p0)) requestId token))).get?
          t.primary with
    | none =>
      have := List.get?_eq_none.mp hg
      rw [hlen] at this
      omega
    | some q => exact ⟨q, rfl⟩
  obtain ⟨r0, hr0, e1, e2, e3, e4⟩ :=
    setKeys_foldl_pres token t.references _ t.primary p' hp'
  rw [hpush] at hr0
  cases hr0
  refine ⟨p', hp', ?_, ?_⟩
  · rw [e3]
    show some (((initStack (snapStatic p0))._dynamic_api_key_stack.getD [])
      ++ [⟨requestId, token⟩]) = _
    rw [show (initStack (snapStatic p0))._dynamic_api_key_stack =
      some ((snapStatic p0)._dynamic_api_key_stack.getD []) from rfl]
    rw [snapStatic_stack]
    rfl
  · rw [e2]
    show (initStack (snapStatic p0))._static_api_key ≠ .undef
    rw [show (initStack (snapStatic p0))._static_api_key =
      (snapStatic p0)._static_api_key from rfl]
    exact snapStatic_static_ne_undef p0

/-- C5 (amended): the overlay is guarded and idempotent.
(a) A blank bearer token makes the whole overlay phase a no-op.
(b) When the supplied token already equals the currently effective
credential — the `newKey` on top of the override stack, else the raw
credential field, else null (`currentKeyOf`, computed after the lazy
initialization) — nothing is pushed, nothing is recorded, the application
is reported as not applied, and the credential fields, the stack entries
and every other object are unchanged; only the lazy `_static_api_key`
snapshot and the stack-field initialization may still be written to the
primary object (which is why the original claim's "nothing mutated" fails
— see the counterexample).
(c) An applied override is never applied twice: re-running the overlay
with the same token on the resulting store is an exact no-op — the store
is returned unchanged and no second stack entry or override record is
produced — so two applications of the same token produce exactly one stack
entry and one recorded override. -/
theorem C5_overlay_guard_and_idempotence :
    (∀ (hasProvider : Option (String → Bool)) (requestId : Nat) (store : Store)
        (req : Req) (targets : List PTarget) (s : String),
      req.bearerToken = .str s → jsTrim s = "" →
      bearerPhase hasProvider requestId store req targets = (store, req, [], [])) ∧
    (∀ (hasProvider : Option (String → Bool)) (requestId : Nat) (token : String)
        (store : Store) (t : PTarget) (p0 : ProviderObj),
      store.get? t.primary = some p0 →
      currentKeyOf (initStack (snapStatic p0)) = .str token →
      overlayTarget hasProvider requestId token store t
          = (store.set t.primary (initStack (snapStatic p0)), none, none) ∧
        (∀ j, j ≠ t.primary →
          (store.set t.primary (initStack (snapStatic p0))).get? j = store.get? j) ∧
        (initStack (snapStatic p0)).api_key = p0.api_key ∧
        (initStack (snapStatic p0)).apiKey = p0.apiKey ∧
        (initStack (snapStatic p0))._dynamic_api_key_stack.getD []
          = p0._dynamic_api_key_stack.getD []) ∧
    (∀ (hasProvider : Option (String → Bool)) (requestId : Nat) (token : String)
        (store : Store) (t : PTarget) (st' : Store) (ovr : PTarget × Nat)
        (nt : Option (String × String)) (p0 : ProviderObj),
      store.get? t.primary = some p0 →
      overlayTarget hasProvider requestId token store t = (st', some ovr, nt) →
      ∀ (hasProvider2 : Option (String → Bool)) (requestId2 : Nat),
        overlayTarget hasProvider2 requestId2 token st' t = (st', none, none)) := by
  refine ⟨?_, ?_, ?_⟩
  · intro hasProvider requestId store req targets s hbt htrim
    unfold bearerPhase
    split
    · rw [hbt]
      simp only [htrim]
      rw [if_neg (by simp)]
    · rfl
  · intro hasProvider requestId token store t p0 hp0 hguard
    refine ⟨?_, ?_, ?_, ?_, ?_⟩
    · simp only [overlayTarget, hp0]
      rw [if_pos hguard]
    · intro j hj
      exact get?_set_ne' store t.primary j _ (fun he => hj he.symm)
    · rw [show (initStack (snapStatic p0)).api_key = (snapStatic p0).api_key from rfl]
      exact snapStatic_api_key p0
    · rw [show (initStack (snapStatic p0)).apiKey = (snapStatic p0).apiKey from rfl]
      exact snapStatic_apiKey p0
    · rw [show (initStack (snapStatic p0))._dynamic_api_key_stack =
        some ((snapStatic p0)._dynamic_api_key_stack.getD []) from rfl]
      rw [snapStatic_stack]
      rfl
  · intro hasProvider requestId token store t st' ovr nt p0 hp0 h
      hasProvider2 requestId2
    obtain ⟨p', hp', hstack, hstat⟩ := overlayTarget_applied_primary hasProvider
      requestId token store t st' ovr nt p0 hp0 h
    have hsnap : snapStatic p' = p' := snapStatic_of_defined p' hstat
    have hinit : initStack p' = p' := initStack_of_some p' _ hstack
    have hcur : currentKeyOf p' = .str token := by
      unfold currentKeyOf
      rw [hstack]
      simp only [Option.getD_some, List.getLast?_concat]
      rfl
    simp only [overlayTarget, hp', hsnap, hinit]
    rw [if_pos hcur]
    rw [set_of_get?_eq st' t.primary p' hp']

/-- C5 counterexample: the claim's "nothing mutated" is false for a no-op
application.  With original credential `"k"` and supplied token `"k"`, the
override is (correctly) reported as not applied and nothing is pushed, but
the provider object *is* mutated: `_static_api_key` is lazily snapshotted
and the stack field is initialized. -/
theorem C5_counterexample :
    (overlayTarget none 0 "k"
      [{ name := "p1", api_key := .str "k", apiKey := .undef, models := none }]
      ⟨"p1", [0], 0⟩).2.1 = none ∧
    (overlayTarget none 0 "k"
      [{ name := "p1", api_key := .str "k", apiKey := .undef, models := none }]
      ⟨"p1", [0], 0⟩).1 ≠
      [{ name := "p1", api_key := .str "k", apiKey := .undef, models := none }] := by
  exact ⟨rfl, by decide⟩

/-- C5 witness: the guarded no-op at a concrete input (token equal to the
raw credential), via the amended theorem. -/
theorem C5_witness :
    overlayTarget none 3 "k"
      [{ name := "p1", api_key := .str "k", apiKey := .undef, models := none }]
      ⟨"p1", [0], 0⟩
      = ([{ name := "p1", api_key := .str "k", apiKey := .undef, models := none,
            _static_api_key := .str "k", _dynamic_api_key_stack := some [] }],
         none, none) := by
  have h := (C5_overlay_guard_and_idempotence.2.1 none 3 "k"
    [{ name := "p1", api_key := .str "k", apiKey := .undef, models := none }]
    ⟨"p1", [0], 0⟩
    { name := "p1", api_key := .str "k", apiKey := .undef, models := none }
    rfl rfl).1
  exact h

/-!
## Claim C6 — provider registry
-/

/-- The update function of `registerOne`'s existing-target branch. -/
theorem registerOne_of_get (store : Store) (acc : List PTarget) (i : Nat)
    (p : ProviderObj) (hg : store.get? i = some p) (h1 : ¬ p.name = "") :
    registerOne store acc i =
      if (acc.any fun t => t.name = p.name) then
        acc.map (fun t =>
          if t.name = p.name then
            { t with references :=
                if i ∈ t.references then t.references else t.references ++ [i] }
          else t)
      else acc ++ [⟨p.name, [i], i⟩] := by
  simp only [registerOne, hg]
  rw [if_neg h1]

theorem validName_of_get (store : Store) (i : Nat) (p : ProviderObj)
    (hg : store.get? i = some p) (h1 : ¬ p.name = "") :
    validName store i = some p.name := by
  simp only [validName, hg, Option.some_bind]
  rw [if_neg h1]

/-- One registration step's effect on the list of target names. -/
theorem registerOne_names (store : Store) (acc : List PTarget) (i : Nat) :
    (registerOne store acc i).map PTarget.name =
      match validName store i with
      | some n => if n ∈ acc.map PTarget.name
          then acc.map PTarget.name
          else acc.map PTarget.name ++ [n]
      | none => acc.map PTarget.name := by
  cases hg : store.get? i with
  | none => simp only [registerOne, validName, hg]; rfl
  | some p =>
    by_cases h1 : p.name = ""
    · simp only [registerOne, validName, hg, Option.some_bind]
      rw [if_pos h1, if_pos h1]
    · rw [registerOne_of_get store acc i p hg h1, validName_of_get store i p hg h1]
      show _ = if p.name ∈ acc.map PTarget.name
        then acc.map PTarget.name else acc.map PTarget.name ++ [p.name]
      split_ifs with h2 h3 h3
      · rw [List.map_map]
        apply List.map_congr_left
        intro t _
        by_cases ht : t.name = p.name
        · simp [ht]
        · simp [ht]
      · exact absurd (by
          rcases List.any_eq_true.mp h2 with ⟨t, htmem, htname⟩
          exact List.mem_map.mpr ⟨t, htmem, of_decide_eq_true htname⟩) h3
      · exact absurd (by
          rcases List.mem_map.mp h3 with ⟨t, htmem, htname⟩
          exact List.any_eq_true.mpr ⟨t, htmem, decide_eq_true htname⟩) h2
      · rw [List.map_append]
        rfl

theorem firstSeenNames_cons (store : Store) (init : List String) (i : Nat)
    (rest : List Nat) :
    firstSeenNames store init (i :: rest) =
      firstSeenNames store
        (match validName store i with
         | some n => if n ∈ init then init else init ++ [n]
         | none => init) rest := by
  unfold firstSeenNames
  rw [List.foldl_cons]

theorem foldl_registerOne_names (store : Store) :
    ∀ (l : List Nat) (acc : List PTarget),
      ((l.foldl (registerOne store) acc).map PTarget.name) =
        firstSeenNames store (acc.map PTarget.name) l := by
  intro l
  induction l with
  | nil => intro acc; rfl
  | cons i rest ih =>
    intro acc
    rw [List.foldl_cons, ih, firstSeenNames_cons, registerOne_names]

/-- One registration step preserves the registry invariant. -/
theorem registerOne_wf (store : Store) (acc : List PTarget) (i : Nat)
    (h : TargetsWF acc) : TargetsWF (registerOne store acc i) := by
  obtain ⟨hnodup, hall⟩ := h
  constructor
  · rw [registerOne_names]
    cases validName store i with
    | none => exact hnodup
    | some n =>
      show (if n ∈ acc.map PTarget.name then acc.map PTarget.name
        else acc.map PTarget.name ++ [n]).Nodup
      split_ifs with hmem
      · exact hnodup
      · rw [List.nodup_append]
        exact ⟨hnodup, List.nodup_singleton n, by
          intro a ha hai
          rw [List.mem_singleton] at hai
          subst hai
          exact hmem ha⟩
  · intro t ht
    cases hg : store.get? i with
    | none =>
      simp only [registerOne, hg] at ht
      exact hall t ht
    | some p =>
      by_cases h1 : p.name = ""
      · simp only [registerOne, hg] at ht
        rw [if_pos h1] at ht
        exact hall t ht
      · rw [registerOne_of_get store acc i p hg h1] at ht
        split_ifs at ht with h2
        · rcases List.mem_map.mp ht with ⟨t0, ht0, hup⟩
          obtain ⟨w1, w2, w3, w4⟩ := hall t0 ht0
          by_cases he : t0.name = p.name
          · rw [if_pos he] at hup
            subst hup
            refine ⟨w1, ?_, ?_, ?_⟩
            · show (if i ∈ t0.references then t0.references
                else t0.references ++ [i]) ≠ []
              split_ifs with hi
              · exact w2
              · simp
            · show t0.primary ∈ _
              split_ifs with hi
              · exact w3
              · exact List.mem_append_left _ w3
            · show (if i ∈ t0.references then t0.references
                else t0.references ++ [i]).Nodup
              split_ifs with hi
              · exact w4
              · rw [List.nodup_append]
                exact ⟨w4, List.nodup_singleton i, by
                  intro a ha hai
                  rw [List.mem_singleton] at hai
                  subst hai
                  exact hi ha⟩
          · rw [if_neg he] at hup
            subst hup
            exact hall t0 ht0
        · rcases List.mem_append.mp ht with hl | hr
          · exact hall t hl
          · rw [List.mem_singleton] at hr
            subst hr
            exact ⟨h1, by simp, by simp, List.nodup_singleton i⟩

theorem foldl_registerOne_wf (store : Store) :
    ∀ (l : List Nat) (acc : List PTarget), TargetsWF acc →
      TargetsWF (l.foldl (registerOne store) acc) := by
  intro l
  induction l with
  | nil => intro acc h; exact h
  | cons i rest ih =>
    intro acc h
    rw [List.foldl_cons]
    exact ih _ (registerOne_wf store acc i h)

/-- Monotonicity: an established reference membership survives later
registrations. -/
theorem registerOne_mono (store : Store) (acc : List PTarget) (i : Nat)
    (t : PTarget) (x : Nat) (ht : t ∈ acc) (hx : x ∈ t.references) :
    ∃ t' ∈ registerOne store acc i, t'.name = t.name ∧ x ∈ t'.references := by
  cases hg : store.get? i with
  | none =>
    simp only [registerOne, hg]
    exact ⟨t, ht, rfl, hx⟩
  | some p =>
    by_cases h1 : p.name = ""
    · simp only [registerOne, hg]
      rw [if_pos h1]
      exact ⟨t, ht, rfl, hx⟩
    · rw [registerOne_of_get store acc i p hg h1]
      split_ifs with h2
      · refine ⟨(fun t =>
          if t.name = p.name then
            { t with references :=
                if i ∈ t.references then t.references else t.references ++ [i] }
          else t) t, List.mem_map_of_mem _ ht, ?_, ?_⟩
        · by_cases he : t.name = p.name
          · simp [he]
          · simp [he]
        · by_cases he : t.name = p.name
          · simp only [if_pos he]
            split_ifs with hi
            · exact hx
            · exact List.mem_append_left _ hx
          · simp only [if_neg he]
            exact hx
      · exact ⟨t, List.mem_append_left _ ht, rfl, hx⟩

theorem registerOne_adds (store : Store) (acc : List PTarget) (i : Nat)
    (n : String) (hv : validName store i = some n) :
    ∃ t ∈ registerOne store acc i, t.name = n ∧ i ∈ t.references := by
  cases hg : store.get? i with
  | none =>
    rw [validName, hg] at hv
    exact Option.noConfusion hv
  | some p =>
    by_cases h1 : p.name = ""
    · simp only [validName, hg, Option.some_bind] at hv
      rw [if_pos h1] at hv
      exact Option.noConfusion hv
    · have hn : p.name = n := by
        have := validName_of_get store i p hg h1
        rw [this] at hv
        exact Option.some.injEq _ _ ▸ hv
      rw [registerOne_of_get store acc i p hg h1]
      split_ifs with h2
      · rcases List.any_eq_true.mp h2 with ⟨t0, ht0, htname⟩
        have he : t0.name = p.name := of_decide_eq_true htname
        refine ⟨(fun t =>
          if t.name = p.name then
            { t with references :=
                if i ∈ t.references then t.references else t.references ++ [i] }
          else t) t0, List.mem_map_of_mem _ ht0, ?_, ?_⟩
        · simp only [if_pos he]
          rw [he, hn]
        · simp only [if_pos he]
          split_ifs with hi
          · exact hi
          · exact List.mem_append_right _ (List.mem_singleton_self i)
      · exact ⟨⟨p.name, [i], i⟩, List.mem_append_right _ (List.mem_singleton_self _),
          hn, List.mem_singleton_self i⟩

theorem foldl_registerOne_mono (store : Store) :
    ∀ (l : List Nat) (acc : List PTarget) (t : PTarget) (x : Nat),
      t ∈ acc → x ∈ t.references →
      ∃ t' ∈ l.foldl (registerOne store) acc, t'.name = t.name ∧ x ∈ t'.references := by
  intro l
  induction l with
  | nil => intro acc t x ht hx; exact ⟨t, ht, rfl, hx⟩
  | cons i rest ih =>
    intro acc t x ht hx
    rw [List.foldl_cons]
    obtain ⟨t', ht', hn', hx'⟩ := registerOne_mono store acc i t x ht hx
    obtain ⟨t'', ht'', hn'', hx''⟩ := ih _ t' x ht' hx'
    exact ⟨t'', ht'', hn''.trans hn', hx''⟩

theorem foldl_registerOne_adds (store : Store) :
    ∀ (l : List Nat) (acc : List PTarget) (i : Nat) (n : String),
      i ∈ l → validName store i = some n →
      ∃ t ∈ l.foldl (registerOne store) acc, t.name = n ∧ i ∈ t.references := by
  intro l
  induction l with
  | nil => intro acc i n hi; exact absurd hi (List.not_mem_nil i)
  | cons j rest ih =>
    intro acc i n hi hv
    rw [List.foldl_cons]
    rcases List.mem_cons.mp hi with he | hr
    · subst he
      obtain ⟨t, ht, hn, hx⟩ := registerOne_adds store acc i n hv
      obtain ⟨t', ht', hn', hx'⟩ := foldl_registerOne_mono store rest _ t i ht hx
      exact ⟨t', ht', hn'.trans hn, hx'⟩
    · exact ih _ i n hr hv

/-- Two targets with the same name in a name-nodup list are equal. -/
theorem eq_of_name_eq_of_nodup :
    ∀ (ts : List PTarget), (ts.map PTarget.name).Nodup →
      ∀ t1 ∈ ts, ∀ t2 ∈ ts, t1.name = t2.name → t1 = t2 := by
  intro ts
  induction ts with
  | nil => intro _ t1 h1; exact absurd h1 (List.not_mem_nil t1)
  | cons t rest ih =>
    intro hnodup t1 h1 t2 h2 hname
    rw [List.map_cons, List.nodup_cons] at hnodup
    obtain ⟨hnot, hrest⟩ := hnodup
    rcases List.mem_cons.mp h1 with e1 | m1 <;> rcases List.mem_cons.mp h2 with e2 | m2
    · rw [e1, e2]
    · subst e1
      exact absurd (hname ▸ List.mem_map_of_mem PTarget.name m2) hnot
    · subst e2
      refine absurd (List.mem_map_of_mem PTarget.name m1) ?_
      rw [hname]
      exact hnot
    · exact ih hrest t1 m1 t2 m2 hname

/-- C6: `collectProviderTargets` merges the capitalized list first, then
the lowercase list, into targets keyed by name in first-seen order
(`firstSeenNames` is the spec-side description of that order): every
target's name is unique, its reference list is non-empty,
identity-deduplicated and contains its primary, every registered valid
entry lands in the target of its name, and in particular two entries with
the same (non-falsy) name across the two lists yield exactly one target
whose references contain both physical entries. -/
theorem C6_collect_targets (store : Store) (config : Config)
    (PL pl : List Nat) (hP : config.Providers = some PL)
    (hp : config.providers = some pl) :
    ((collectProviderTargets store config).map PTarget.name
        = firstSeenNames store (firstSeenNames store [] PL) pl) ∧
    ((collectProviderTargets store config).map PTarget.name).Nodup ∧
    (∀ t ∈ collectProviderTargets store config,
      t.references ≠ [] ∧ t.primary ∈ t.references ∧ t.references.Nodup) ∧
    (∀ i n, (i ∈ PL ∨ i ∈ pl) → validName store i = some n →
      ∃ t ∈ collectProviderTargets store config, t.name = n ∧ i ∈ t.references) ∧
    (∀ i j n, i ∈ PL → j ∈ pl →
      validName store i = some n → validName store j = some n →
      ∃ t ∈ collectProviderTargets store config, t.name = n ∧
        i ∈ t.references ∧ j ∈ t.references ∧
        ∀ t' ∈ collectProviderTargets store config, t'.name = n → t' = t) := by
  have hcollect : collectProviderTargets store config =
      pl.foldl (registerOne store) (PL.foldl (registerOne store) []) := by
    unfold collectProviderTargets registerProviders
    rw [hP, hp]
  have hwf : TargetsWF (collectProviderTargets store config) := by
    rw [hcollect]
    exact foldl_registerOne_wf store pl _
      (foldl_registerOne_wf store PL [] ⟨List.nodup_nil, by intro t ht; exact absurd ht (List.not_mem_nil t)⟩)
  have hmemUp : ∀ i n, (i ∈ PL ∨ i ∈ pl) → validName store i = some n →
      ∃ t ∈ collectProviderTargets store config, t.name = n ∧ i ∈ t.references := by
    intro i n hi hv
    rw [hcollect]
    rcases hi with hiP | hip
    · obtain ⟨t, ht, hn, hx⟩ := foldl_registerOne_adds store PL [] i n hiP hv
      obtain ⟨t', ht', hn', hx'⟩ := foldl_registerOne_mono store pl _ t i ht hx
      exact ⟨t', ht', hn'.trans hn, hx'⟩
    · exact foldl_registerOne_adds store pl _ i n hip hv
  refine ⟨?_, hwf.1, ?_, hmemUp, ?_⟩
  · rw [hcollect, foldl_registerOne_names, foldl_registerOne_names]
    rfl
  · intro t ht
    obtain ⟨-, w2, w3, w4⟩ := hwf.2 t ht
    exact ⟨w2, w3, w4⟩
  · intro i j n hiP hjp hvi hvj
    obtain ⟨t1, ht1, hn1, hx1⟩ := hmemUp i n (Or.inl hiP) hvi
    obtain ⟨t2, ht2, hn2, hx2⟩ := hmemUp j n (Or.inr hjp) hvj
    have heq : t2 = t1 :=
      eq_of_name_eq_of_nodup _ hwf.1 t2 ht2 t1 ht1 (hn2.trans hn1.symm)
    refine ⟨t1, ht1, hn1, hx1, heq ▸ hx2, ?_⟩
    intro t' ht' hn'
    exact eq_of_name_eq_of_nodup _ hwf.1 t' ht' t1 ht1 (hn'.trans hn1.symm)

/-- C6 witness: a provider name declared in both lists (as two distinct
physical objects, indices 0 and 1) yields one target holding both
references, with primary the first-seen entry. -/
theorem C6_witness :
    ∃ t ∈ collectProviderTargets
      [{ name := "dup", api_key := .undef, apiKey := .undef, models := none },
       { name := "dup", api_key := .str "other", apiKey := .undef, models := none }]
      { Providers := some [0], providers := some [1], Router := { default := "D" } },
      t.name = "dup" ∧ (0 : Nat) ∈ t.references ∧ (1 : Nat) ∈ t.references ∧
      t.references ≠ [] ∧ t.primary ∈ t.references := by
  have h := C6_collect_targets
    [{ name := "dup", api_key := .undef, apiKey := .undef, models := none },
     { name := "dup", api_key := .str "other", apiKey := .undef, models := none }]
    { Providers := some [0], providers := some [1], Router := { default := "D" } }
    [0] [1] rfl rfl
  obtain ⟨-, -, hwf, -, hpair⟩ := h
  obtain ⟨t, ht, hn, h0, h1, -⟩ := hpair 0 1 "dup" (by decide) (by decide) rfl rfl
  obtain ⟨w2, w3, -⟩ := hwf t ht
  exact ⟨t, ht, hn, h0, h1, w2, w3⟩

/-!
## Claim C8 — session id extraction
-/

theorem noOcc_iff_bounded (sep l : List Char) (hs : sep ≠ []) :
    NoOcc sep l ↔ ∀ i < l.length, ¬ sep.isPrefixOf (l.drop i) := by
  constructor
  · intro h i _
    exact h i
  · intro h i
    by_cases hi : i < l.length
    · exact h i hi
    · rw [List.drop_eq_nil_of_le (by omega)]
      cases sep with
      | nil => exact absurd rfl hs
      | cons c cs => simp [List.isPrefixOf]

/-- The session delimiter. -/
theorem session_sep_ne_nil : "_session_".data ≠ [] := by decide

/-- Reduction of `sessionPhase` to the split of the user id. -/
theorem sessionPhase_eq_split (req : Req) (m : List (String × JSVal))
    (uid : String) (hmeta : req.body.metadata = .obj m)
    (huid : jsLookup m "user_id" = .str uid) (hne : uid ≠ "") :
    sessionPhase req =
      if (jsSplit uid "_session_").length > 1 then
        .ok { req with sessionId := (jsSplit uid "_session_").get? 1 }
      else .ok req := by
  simp only [sessionPhase, hmeta]
  rw [show jsGetD (JSVal.obj m) "user_id" = JSVal.str uid from huid]
  rw [if_pos (by simpa [JSVal.truthy] using hne)]

/-- C8 (amended): when the metadata user identifier contains the session
delimiter, the session id written to the request is the text *between the
first occurrence of the delimiter and the next occurrence* (the second
field of splitting on every occurrence) — which equals "everything after
the first occurrence" only when the delimiter occurs exactly once; when the
delimiter is absent, no session id is produced and the session-usage
lookup is a cache miss. -/
theorem C8_session_amended (req : Req) (m : List (String × JSVal))
    (uid : String) (hmeta : req.body.metadata = .obj m)
    (huid : jsLookup m "user_id" = .str uid) (hne : uid ≠ "") :
    (∀ a b : List Char,
      uid.data = a ++ "_session_".data ++ b →
      FirstOcc "_session_".data a b →
      NoOcc "_session_".data b →
      sessionPhase req = .ok { req with sessionId := some ⟨b⟩ }) ∧
    (∀ a b1 b2 : List Char,
      uid.data = a ++ "_session_".data ++ (b1 ++ "_session_".data ++ b2) →
      FirstOcc "_session_".data a (b1 ++ "_session_".data ++ b2) →
      FirstOcc "_session_".data b1 b2 →
      sessionPhase req = .ok { req with sessionId := some ⟨b1⟩ }) ∧
    (NoOcc "_session_".data uid.data →
      sessionPhase req = .ok req ∧
      (∀ cache : String → Option Usage,
        req.sessionId = none → req.sessionId.bind cache = none)) := by
  have hsep := session_sep_ne_nil
  refine ⟨?_, ?_, ?_⟩
  · intro a b hdata hfirst hno
    have hsplit : jsSplit uid "_session_" = [⟨a⟩, ⟨b⟩] := by
      unfold jsSplit
      rw [hdata, jsSplitCh_append hsep hfirst, jsSplitCh_single hno]
      rfl
    rw [sessionPhase_eq_split req m uid hmeta huid hne, hsplit]
    rfl
  · intro a b1 b2 hdata hfirst1 hfirst2
    have hsplit : jsSplit uid "_session_" =
        ⟨a⟩ :: ⟨b1⟩ :: ((jsSplitCh "_session_".data b2).map (fun cs => ⟨cs⟩)) := by
      unfold jsSplit
      rw [hdata, jsSplitCh_append hsep hfirst1, jsSplitCh_append hsep hfirst2]
      rfl
    rw [sessionPhase_eq_split req m uid hmeta huid hne, hsplit]
    rw [if_pos (by simp)]
    rfl
  · intro hno
    have hsplit : jsSplit uid "_session_" = [uid] := by
      unfold jsSplit
      rw [jsSplitCh_single hno]
      rfl
    constructor
    · rw [sessionPhase_eq_split req m uid hmeta huid hne, hsplit]
      rw [if_neg (by simp)]
    · intro cache h
      rw [h]
      rfl

/-- C8 counterexample: in `"u_session_a_session_b"` the delimiter occurs
twice; the code stores `"a"` (the text between the two occurrences), not
`"a_session_b"` (everything after the first occurrence) as the claim
requires. -/
theorem C8_counterexample :
    sessionPhase
      { body :=
          { model := "m",
            metadata := .obj [("user_id", .str "u_session_a_session_b")] } }
      = .ok
        { body :=
            { model := "m",
              metadata := .obj [("user_id", .str "u_session_a_session_b")] },
          sessionId := some "a" } ∧
    (some "a" : Option String) ≠ some "a_session_b" := ⟨rfl, by decide⟩

/-- C8 witness: exactly one occurrence — the session id is everything
after it; and the absent-delimiter case is a cache miss. -/
theorem C8_witness :
    sessionPhase
      { body :=
          { model := "m",
            metadata := .obj [("user_id", .str "u_session_xyz")] } }
      = .ok
        { body :=
            { model := "m",
              metadata := .obj [("user_id", .str "u_session_xyz")] },
          sessionId := some "xyz" } ∧
    sessionPhase
      { body := { model := "m", metadata := .obj [("user_id", .str "plain")] } }
      = .ok
        { body := { model := "m", metadata := .obj [("user_id", .str "plain")] } } := by
  constructor
  · exact (C8_session_amended
      { body :=
          { model := "m",
            metadata := .obj [("user_id", .str "u_session_xyz")] } }
      [("user_id", .str "u_session_xyz")] "u_session_xyz" rfl rfl (by decide)).1
      "u".data "xyz".data rfl (by decide)
      ((noOcc_iff_bounded _ _ session_sep_ne_nil).mpr (by decide))
  · exact ((C8_session_amended
      { body := { model := "m", metadata := .obj [("user_id", .str "plain")] } }
      [("user_id", .str "plain")] "plain" rfl rfl (by decide)).2.2
      ((noOcc_iff_bounded _ _ session_sep_ne_nil).mpr (by decide))).1

/-!
## Claim C1 — router error containment
-/

/-- The try-phase when token counting raises: the catch logs and writes the
default model (the custom router never runs). -/
theorem routerTryPhase_tc_error (encode : String → Nat)
    (crequire : String → Except String CRFn) (store : Store) (config : Config)
    (req : Req) (lastUsage : Option Usage) (e : String)
    (htc : calculateTokenCount encode req.body.messages (segsToJs req.body.system)
      req.body.tools = .error e) :
    routerTryPhase encode crequire store config req lastUsage =
      ({ req with body := { req.body with model := config.Router.default } },
       ["Error in router middleware: " ++ e]) := by
  unfold routerTryPhase
  rw [htc]

/-- The try-phase when the custom router loads but its invocation raises:
the failure is logged by the inner catch and the built-in algorithm's
result is used (with `tokenCount` recorded on the request). -/
theorem routerTryPhase_invoke_error (encode : String → Nat)
    (crequire : String → Except String CRFn) (store : Store) (config : Config)
    (req : Req) (lastUsage : Option Usage) (tc : Nat) (e : String) (path : String)
    (mdl : String) (body' : ReqBody) (fn : CRFn)
    (hcust : config.CUSTOM_ROUTER_PATH = some path) (hpath : path ≠ "")
    (hcr : crequire path = .ok fn)
    (hfn : fn { req with tokenCount := some tc } config = .error e)
    (htc : calculateTokenCount encode req.body.messages (segsToJs req.body.system)
      req.body.tools = .ok tc)
    (hgum : getUseModel store config req.body tc lastUsage = .ok (mdl, body')) :
    routerTryPhase encode crequire store config req lastUsage =
      ({ req with tokenCount := some tc, body := { body' with model := mdl } },
       ["failed to load custom router: " ++ e]) := by
  unfold routerTryPhase
  rw [htc]
  simp only [customPhase_invoke_error crequire config req tc path e fn hcust hpath
    hcr hfn, OptStr.truthy, Bool.false_eq_true, if_false, hgum]

/-- The try-phase when the built-in decision path raises: the catch logs
and writes the default model. -/
theorem routerTryPhase_gum_error (encode : String → Nat)
    (crequire : String → Except String CRFn) (store : Store) (config : Config)
    (req : Req) (lastUsage : Option Usage) (tc : Nat) (e : String)
    (hcust : config.CUSTOM_ROUTER_PATH = none)
    (htc : calculateTokenCount encode req.body.messages (segsToJs req.body.system)
      req.body.tools = .ok tc)
    (hgum : getUseModel store config req.body tc lastUsage = .error e) :
    routerTryPhase encode crequire store config req lastUsage =
      ({ req with body := { req.body with model := config.Router.default } },
       ["Error in router middleware: " ++ e]) := by
  unfold routerTryPhase
  rw [htc]
  simp only [customPhase_none crequire config req tc hcust, OptStr.truthy,
    Bool.false_eq_true, if_false, hgum, List.nil_append]

/-- The try-phase when loading the custom router fails: the failure is
logged and the built-in algorithm's result is used. -/
theorem routerTryPhase_custom_error (encode : String → Nat)
    (crequire : String → Except String CRFn) (store : Store) (config : Config)
    (req : Req) (lastUsage : Option Usage) (tc : Nat) (e : String) (path : String)
    (mdl : String) (body' : ReqBody)
    (hcust : config.CUSTOM_ROUTER_PATH = some path) (hpath : path ≠ "")
    (hcr : crequire path = .error e)
    (htc : calculateTokenCount encode req.body.messages (segsToJs req.body.system)
      req.body.tools = .ok tc)
    (hgum : getUseModel store config req.body tc lastUsage = .ok (mdl, body')) :
    routerTryPhase encode crequire store config req lastUsage =
      ({ req with body := { body' with model := mdl } },
       ["failed to load custom router: " ++ e]) := by
  unfold routerTryPhase
  rw [htc]
  simp only [customPhase_require_error crequire config req tc path e hcust hpath hcr,
    OptStr.truthy, Bool.false_eq_true, if_false, hgum]

/-- C1 (amended): the guarded region of the router is total — an exception
in the decision path is caught, logged, and answered by writing the
configured default model, both when token counting raises (part 1) and when
`getUseModel` raises (part 2); a failure loading the custom router
(part 3) or invoking it (part 4) is caught, logged, and routing falls
through to the built-in algorithm's result.  However, contrary to the
original claim, an unreadable prompt-rewrite file is read *outside* the
guarded region and its error propagates to the caller (see the
counterexample). -/
theorem C1_router_amended :
    (∀ (encode : String → Nat) (fs : String → Except String String)
        (crequire : String → Except String CRFn) (cache : String → Option Usage)
        (hasProvider : Option (String → Bool)) (requestId : Nat)
        (store : Store) (config : Config) (req req2 req3 : Req) (e : String),
      sessionPhase (bearerPhase hasProvider requestId store req
        (collectProviderTargets store config)).2.1 = .ok req2 →
      rewritePhase fs config req2 = .ok req3 →
      calculateTokenCount encode req3.body.messages (segsToJs req3.body.system)
        req3.body.tools = .error e →
      ∃ out, router encode fs crequire cache hasProvider requestId store config req
          = .ok out ∧
        out.req.body.model = config.Router.default ∧
        ("Error in router middleware: " ++ e) ∈ out.log) ∧
    (∀ (encode : String → Nat) (fs : String → Except String String)
        (crequire : String → Except String CRFn) (cache : String → Option Usage)
        (hasProvider : Option (String → Bool)) (requestId : Nat)
        (store : Store) (config : Config) (req req2 req3 : Req) (tc : Nat)
        (e : String),
      sessionPhase (bearerPhase hasProvider requestId store req
        (collectProviderTargets store config)).2.1 = .ok req2 →
      rewritePhase fs config req2 = .ok req3 →
      config.CUSTOM_ROUTER_PATH = none →
      calculateTokenCount encode req3.body.messages (segsToJs req3.body.system)
        req3.body.tools = .ok tc →
      getUseModel (bearerPhase hasProvider requestId store req
        (collectProviderTargets store config)).1 config req3.body tc
        (req2.sessionId.bind cache) = .error e →
      ∃ out, router encode fs crequire cache hasProvider requestId store config req
          = .ok out ∧
        out.req.body.model = config.Router.default ∧
        ("Error in router middleware: " ++ e) ∈ out.log) ∧
    (∀ (encode : String → Nat) (fs : String → Except String String)
        (crequire : String → Except String CRFn) (cache : String → Option Usage)
        (hasProvider : Option (String → Bool)) (requestId : Nat)
        (store : Store) (config : Config) (req req2 req3 : Req) (tc : Nat)
        (e path mdl : String) (body' : ReqBody),
      sessionPhase (bearerPhase hasProvider requestId store req
        (collectProviderTargets store config)).2.1 = .ok req2 →
      rewritePhase fs config req2 = .ok req3 →
      config.CUSTOM_ROUTER_PATH = some path → path ≠ "" →
      crequire path = .error e →
      calculateTokenCount encode req3.body.messages (segsToJs req3.body.system)
        req3.body.tools = .ok tc →
      getUseModel (bearerPhase hasProvider requestId store req
        (collectProviderTargets store config)).1 config req3.body tc
        (req2.sessionId.bind cache) = .ok (mdl, body') →
      ∃ out, router encode fs crequire cache hasProvider requestId store config req
          = .ok out ∧
        out.req.body.model = mdl ∧
        ("failed to load custom router: " ++ e) ∈ out.log) ∧
    (∀ (encode : String → Nat) (fs : String → Except String String)
        (crequire : String → Except String CRFn) (cache : String → Option Usage)
        (hasProvider : Option (String → Bool)) (requestId : Nat)
        (store : Store) (config : Config) (req req2 req3 : Req) (tc : Nat)
        (e path mdl : String) (body' : ReqBody) (fn : CRFn),
      sessionPhase (bearerPhase hasProvider requestId store req
        (collectProviderTargets store config)).2.1 = .ok req2 →
      rewritePhase fs config req2 = .ok req3 →
      config.CUSTOM_ROUTER_PATH = some path → path ≠ "" →
      crequire path = .ok fn →
      fn { req3 with tokenCount := some tc } config = .error e →
      calculateTokenCount encode req3.body.messages (segsToJs req3.body.system)
        req3.body.tools = .ok tc →
      getUseModel (bearerPhase hasProvider requestId store req
        (collectProviderTargets store config)).1 config req3.body tc
        (req2.sessionId.bind cache) = .ok (mdl, body') →
      ∃ out, router encode fs crequire cache hasProvider requestId store config req
          = .ok out ∧
        out.req.body.model = mdl ∧
        ("failed to load custom router: " ++ e) ∈ out.log) := by
  refine ⟨?_, ?_, ?_, ?_⟩
  · intro encode fs crequire cache hasProvider requestId store config req req2 req3
      e hs hr htc
    rw [router_eq, hs]
    simp only [Except.bind]
    rw [hr]
    simp only [Except.bind]
    rw [routerTryPhase_tc_error encode crequire _ config req3 _ e htc]
    refine ⟨_, rfl, rfl, ?_⟩
    exact List.mem_append_right _ (List.mem_singleton_self _)
  · intro encode fs crequire cache hasProvider requestId store config req req2 req3
      tc e hs hr hcust htc hgum
    rw [router_eq, hs]
    simp only [Except.bind]
    rw [hr]
    simp only [Except.bind]
    rw [routerTryPhase_gum_error encode crequire _ config req3 _ tc e hcust htc hgum]
    refine ⟨_, rfl, rfl, ?_⟩
    exact List.mem_append_right _ (List.mem_singleton_self _)
  · intro encode fs crequire cache hasProvider requestId store config req req2 req3
      tc e path mdl body' hs hr hcust hpath hcr htc hgum
    rw [router_eq, hs]
    simp only [Except.bind]
    rw [hr]
    simp only [Except.bind]
    rw [routerTryPhase_custom_error encode crequire _ config req3 _ tc e path mdl
      body' hcust hpath hcr htc hgum]
    refine ⟨_, rfl, rfl, ?_⟩
    exact List.mem_append_right _ (List.mem_singleton_self _)
  · intro encode fs crequire cache hasProvider requestId store config req req2 req3
      tc e path mdl body' fn hs hr hcust hpath hcr hfn htc hgum
    rw [router_eq, hs]
    simp only [Except.bind]
    rw [hr]
    simp only [Except.bind]
    rw [routerTryPhase_invoke_error encode crequire _ config req3 _ tc e path mdl
      body' fn hcust hpath hcr hfn htc hgum]
    refine ⟨_, rfl, rfl, ?_⟩
    exact List.mem_append_right _ (List.mem_singleton_self _)

/-- C1 counterexample: with the prompt-rewrite feature configured and an
unreadable prompt file, the router call *propagates* the read error to the
caller instead of catching it — the `readFile` happens outside the `try`
block — refuting "the router call never propagates an error". -/
theorem C1_counterexample :
    router String.length (fun _ => .error "ENOENT") (fun _ => .error "nocr")
      (fun _ => none) none 0 []
      { Router := { default := "D" }, REWRITE_SYSTEM_PROMPT := some "/p.txt" }
      { body := { model := "m", system := [⟨"text", "a"⟩, ⟨"text", "x<env>y"⟩] } }
      = .error "ENOENT" := rfl

/-- C1 witness: all four containment parts at concrete inputs — a
token-counting TypeError (truthy non-array `tools`) is caught and the
default model substituted; a decision-path TypeError (compound model with
`Providers` absent) is caught and the default model substituted; a
custom-router load failure is logged and the built-in default used; a
custom-router invocation failure is logged and the built-in default
used. -/
theorem C1_witness :
    (∃ out, router String.length (fun _ => .ok "P") (fun _ => .error "nocr")
        (fun _ => none) none 0 []
        { Providers := none, Router := { default := "D" } }
        { body := { model := "m", tools := .num 1 } } = .ok out ∧
      out.req.body.model = "D" ∧
      ("Error in router middleware: TypeError: tools.forEach is not a function")
        ∈ out.log) ∧
    (∃ out, router String.length (fun _ => .ok "P") (fun _ => .error "nocr")
        (fun _ => none) none 0 []
        { Providers := none, Router := { default := "D" } }
        { body := { model := "a,b" } } = .ok out ∧
      out.req.body.model = "D" ∧
      ("Error in router middleware: TypeError: Cannot read properties of undefined (reading find)")
        ∈ out.log) ∧
    (∃ out, router String.length (fun _ => .ok "P") (fun _ => .error "boom")
        (fun _ => none) none 0 []
        { Providers := none, Router := { default := "D" },
          CUSTOM_ROUTER_PATH := some "/cr.js" }
        { body := { model := "m" } } = .ok out ∧
      out.req.body.model = "D" ∧
      ("failed to load custom router: boom") ∈ out.log) ∧
    (∃ out, router String.length (fun _ => .ok "P")
        (fun _ => .ok (fun _ _ => .error "crash"))
        (fun _ => none) none 0 []
        { Providers := none, Router := { default := "D" },
          CUSTOM_ROUTER_PATH := some "/cr.js" }
        { body := { model := "m" } } = .ok out ∧
      out.req.body.model = "D" ∧
      ("failed to load custom router: crash") ∈ out.log) := by
  refine ⟨?_, ?_, ?_, ?_⟩
  · exact C1_router_amended.1 String.length (fun _ => .ok "P") (fun _ => .error "nocr")
      (fun _ => none) none 0 []
      { Providers := none, Router := { default := "D" } }
      { body := { model := "m", tools := .num 1 } }
      { body := { model := "m", tools := .num 1 } }
      { body := { model := "m", tools := .num 1 } }
      "TypeError: tools.forEach is not a function"
      rfl rfl rfl
  · exact C1_router_amended.2.1 String.length (fun _ => .ok "P") (fun _ => .error "nocr")
      (fun _ => none) none 0 []
      { Providers := none, Router := { default := "D" } }
      { body := { model := "a,b" } } { body := { model := "a,b" } }
      { body := { model := "a,b" } } 0
      "TypeError: Cannot read properties of undefined (reading find)"
      rfl rfl rfl rfl rfl
  · exact C1_router_amended.2.2.1 String.length (fun _ => .ok "P") (fun _ => .error "boom")
      (fun _ => none) none 0 []
      { Providers := none, Router := { default := "D" },
        CUSTOM_ROUTER_PATH := some "/cr.js" }
      { body := { model := "m" } } { body := { model := "m" } }
      { body := { model := "m" } } 0 "boom" "/cr.js" "D" { model := "m" }
      rfl rfl rfl (by decide) rfl rfl rfl
  · exact C1_router_amended.2.2.2 String.length (fun _ => .ok "P")
      (fun _ => .ok (fun _ _ => .error "crash"))
      (fun _ => none) none 0 []
      { Providers := none, Router := { default := "D" },
        CUSTOM_ROUTER_PATH := some "/cr.js" }
      { body := { model := "m" } } { body := { model := "m" } }
      { body := { model := "m" } } 0 "crash" "/cr.js" "D" { model := "m" }
      (fun _ _ => .error "crash")
      rfl rfl rfl (by decide) rfl rfl rfl rfl
